import Mathlib

/-!
# SST core: rank addressing, serialization operators, object transport,
shared-memory tunnel and memory requests

A shallow embedding of `rankInfo.h`, `serialization/serialize.h`,
`serialization/serialize_serializable.h`, `objectComms.h`,
`interprocess/ipctunnel.h` and the class `Request` of `interfaces/simpleMem.h`,
with the properties of each proved over the embedding.

Machine integers are natural numbers or integers with the wrap-around of the
C++ type made explicit (`toInt32`, `toInt64`, `% 2^32`).
-/

namespace SST

/-! ## rankInfo.h -/

/-- Class `RankInfo`: two `uint32_t` fields, `rank` and `thread`. Values are built
with `RankInfo.new` or `RankInfo.unassigned`, which keep both fields below `2^32`. -/
structure RankInfo where
  rank : Nat
  thread : Nat
deriving DecidableEq, Repr

namespace RankInfo

/-- Constant `static const uint32_t UNASSIGNED = (uint32_t)-1`. -/
def UNASSIGNED : Nat := 4294967295

/-- Constructor `RankInfo(uint32_t rank, uint32_t thread)`; the arguments are
converted to `uint32_t` at the call. -/
def new (rank thread : Nat) : RankInfo :=
  { rank := rank % 4294967296, thread := thread % 4294967296 }

/-- Constructor `RankInfo()`: both fields are `UNASSIGNED`. -/
def unassigned : RankInfo :=
  { rank := UNASSIGNED, thread := UNASSIGNED }

/-- Method `isAssigned`: `rank != UNASSIGNED && thread != UNASSIGNED`. -/
def isAssigned (r : RankInfo) : Bool :=
  r.rank != UNASSIGNED && r.thread != UNASSIGNED

/-- Method `inRange`: `(rank > other.rank) && (thread > other.thread)`. -/
def inRange (r other : RankInfo) : Bool :=
  decide (r.rank > other.rank) && decide (r.thread > other.thread)

/-- Method `operator==`. -/
def eq (r other : RankInfo) : Bool :=
  (r.rank == other.rank) && (r.thread == other.thread)

/-- Method `operator!=`. -/
def ne (r other : RankInfo) : Bool :=
  !(r.eq other)

/-- Method `operator<`. -/
def lt (r other : RankInfo) : Bool :=
  if r.rank == other.rank then decide (r.thread < other.thread)
  else decide (r.rank < other.rank)

/-- Method `operator<=`. -/
def le (r other : RankInfo) : Bool :=
  if r.rank == other.rank then decide (r.thread ≤ other.thread)
  else decide (r.rank ≤ other.rank)

/-- Method `operator>`. -/
def gt (r other : RankInfo) : Bool :=
  if r.rank == other.rank then decide (r.thread > other.thread)
  else decide (r.rank > other.rank)

/-- Method `operator>=`. -/
def ge (r other : RankInfo) : Bool :=
  if r.rank == other.rank then decide (r.thread ≥ other.thread)
  else decide (r.rank ≥ other.rank)

/-- The data-model invariant of a rank address: both fields are the sentinel,
or neither is. -/
def bothOrNeither (r : RankInfo) : Prop :=
  (r.rank = UNASSIGNED ∧ r.thread = UNASSIGNED) ∨
  (r.rank ≠ UNASSIGNED ∧ r.thread ≠ UNASSIGNED)

instance (r : RankInfo) : Decidable r.bothOrNeither := by
  unfold bothOrNeither; infer_instance

end RankInfo

/-! ## serialization/serialize.h -/

/-- One `char` of a buffer, as its value `0 .. 255`. -/
abbrev Byte := Nat

/-- Little-endian object representation, `w` bytes wide, of the unsigned value `n`. -/
def leBytes : Nat → Nat → List Byte
  | 0, _ => []
  | w + 1, n => (n % 256) :: leBytes w (n / 256)

/-- The unsigned value held by a little-endian object representation. -/
def leValue : List Byte → Nat
  | [] => 0
  | b :: bs => b + 256 * leValue bs

/-- Modelled from the spec: the raw byte representation of a primitive type `T`
(the class `serializer` and its header are not among the sources; "primitive
types serialize as their raw byte representation"). `width` is `sizeof(T)`,
`toBytes` copies the object representation out of a value, `ofBytes` copies it
back in, and `valid` singles out the values the C++ type holds. -/
structure RawRepr (T : Type) where
  width : Nat
  valid : T → Prop
  toBytes : T → List Byte
  ofBytes : List Byte → T
  length_toBytes : ∀ v, (toBytes v).length = width
  ofBytes_toBytes : ∀ v, valid v → ofBytes (toBytes v) = v

/-- Conversion of an integer to `int` (32 bits, two's complement). -/
def toInt32 (v : Int) : Int :=
  if v % 4294967296 < 2147483648 then v % 4294967296 else v % 4294967296 - 4294967296

/-- Conversion of an integer to `int64_t` (two's complement). -/
def toInt64 (v : Int) : Int :=
  if v % 18446744073709551616 < 9223372036854775808 then v % 18446744073709551616
  else v % 18446744073709551616 - 18446744073709551616

/-- Object representation of an `int`: four bytes, little-endian, two's complement. -/
def intToBytes (v : Int) : List Byte :=
  leBytes 4 (v % 4294967296).toNat

/-- The `int` held by an object representation. -/
def bytesToInt (bs : List Byte) : Int :=
  toInt32 (leValue bs)

/-- Modes of a `serializer`: `serializer::SIZER`, `serializer::PACK`, `serializer::UNPACK`. -/
inductive SERIALIZE_MODE where
  | SIZER
  | PACK
  | UNPACK
deriving DecidableEq, Repr

/-- Modelled from the spec: the class `serializer`, whose header is not among
the sources. The context "carries one of three modes and accumulates either a
byte count, packed bytes, or reconstructed values accordingly": `sizer` is the
byte count of the SIZER pass, `packed` the bytes written so far by the PACK
pass, `unpackBuf` the bytes the UNPACK pass has still to read. -/
structure serializer where
  mode : SERIALIZE_MODE
  sizer : Nat
  packed : List Byte
  unpackBuf : List Byte
deriving DecidableEq, Repr

/-- Modelled from the spec: the method `serializer::primitive`, whose header is
not among the sources. SIZER adds `sizeof(T)` to the count, PACK appends the raw
bytes of `t`, UNPACK reads `sizeof(T)` bytes into `t`; SIZER and PACK leave `t`
as it is. -/
def serializer.primitive {T : Type} (R : RawRepr T) (t : T) (ser : serializer) :
    T × serializer :=
  match ser.mode with
  | SERIALIZE_MODE.SIZER => (t, { ser with sizer := ser.sizer + R.width })
  | SERIALIZE_MODE.PACK => (t, { ser with packed := ser.packed ++ R.toBytes t })
  | SERIALIZE_MODE.UNPACK =>
    (R.ofBytes (ser.unpackBuf.take R.width),
     { ser with unpackBuf := ser.unpackBuf.drop R.width })

/-- Template `serialize<T>::operator()(T& t, serializer& ser)`: `ser.primitive(t)`.
The new value of `t` and the new state of `ser` are returned. -/
def serialize {T : Type} (R : RawRepr T) (t : T) (ser : serializer) : T × serializer :=
  ser.primitive R t

theorem leBytes_length (w n : Nat) : (leBytes w n).length = w := by
  induction w generalizing n with
  | zero => rfl
  | succ w ih => simp [leBytes, ih]

theorem leValue_leBytes (w n : Nat) (h : n < 256 ^ w) : leValue (leBytes w n) = n := by
  induction w generalizing n with
  | zero =>
    simp at h
    simp [leBytes, leValue, h]
  | succ w ih =>
    have h2 : n / 256 < 256 ^ w := by
      rw [Nat.div_lt_iff_lt_mul (by norm_num)]
      rw [pow_succ] at h
      exact h
    simp only [leBytes, leValue, ih (n / 256) h2]
    omega

theorem bytesToInt_intToBytes (v : Int)
    (h : -2147483648 ≤ v ∧ v < 2147483648) : bytesToInt (intToBytes v) = v := by
  unfold bytesToInt intToBytes
  have hlt : (v % 4294967296).toNat < 256 ^ 4 := by
    norm_num
    omega
  rw [leValue_leBytes 4 _ hlt]
  unfold toInt32
  have hnn : (0 : Int) ≤ v % 4294967296 := Int.emod_nonneg _ (by norm_num)
  rw [Int.toNat_of_nonneg hnn]
  split <;> omega

/-- The raw representation of `int`. -/
def intRepr : RawRepr Int where
  width := 4
  valid := fun v => -2147483648 ≤ v ∧ v < 2147483648
  toBytes := intToBytes
  ofBytes := bytesToInt
  length_toBytes := fun _ => leBytes_length 4 _
  ofBytes_toBytes := bytesToInt_intToBytes

/-- The raw representation of an unsigned integer type `w` bytes wide. -/
def uintRepr (w : Nat) : RawRepr Nat where
  width := w
  valid := fun v => v < 256 ^ w
  toBytes := leBytes w
  ofBytes := leValue
  length_toBytes := leBytes_length w
  ofBytes_toBytes := leValue_leBytes w

/-- Specialization `serialize<bool>::operator()(bool& t, serializer& ser)`:
`int bval = t; ser.primitive(bval); t = bool(bval);`. -/
def serialize_bool (t : Bool) (ser : serializer) : Bool × serializer :=
  let bval : Int := if t then 1 else 0
  let r := ser.primitive intRepr bval
  (r.1 != 0, r.2)

/-! ## serialization/serialize_serializable.h -/

/-- The functions `pvt::size_serializable`, `pvt::pack_serializable` and
`pvt::unpack_serializable`, declared in the header and defined elsewhere. `S` is
the type `serializable*`. The first two take the pointer by value and can only
change the serializer; the third takes it by reference. -/
structure SerializableOps (S : Type) where
  size_serializable : S → serializer → serializer
  pack_serializable : S → serializer → serializer
  unpack_serializable : S → serializer → S × serializer

/-- Specialization `serialize<serializable*>::operator()(serializable*& s, serializer& ser)`. -/
def serialize_serializable_ptr {S : Type} (ops : SerializableOps S) (s : S)
    (ser : serializer) : S × serializer :=
  match ser.mode with
  | SERIALIZE_MODE.SIZER => (s, ops.size_serializable s ser)
  | SERIALIZE_MODE.PACK => (s, ops.pack_serializable s ser)
  | SERIALIZE_MODE.UNPACK => ops.unpack_serializable s ser

/-- Specialization `serialize<T*>::operator()(T*& s, serializer& ser)`. `P` is the
type `T*`, `up` is `static_cast<serializable*>` and `down` is `static_cast<T*>`. -/
def serialize_ptr {S P : Type} (ops : SerializableOps S) (up : P → S) (down : S → P)
    (s : P) (ser : serializer) : P × serializer :=
  let sp := up s
  let r : S × serializer :=
    match ser.mode with
    | SERIALIZE_MODE.SIZER => (sp, ops.size_serializable sp ser)
    | SERIALIZE_MODE.PACK => (sp, ops.pack_serializable sp ser)
    | SERIALIZE_MODE.UNPACK => ops.unpack_serializable sp ser
  (down r.1, r.2)

/-- Function `serialize_intrusive_ptr(T*& t, serializer& ser)`; `dyn` is
`dynamic_cast<T*>`, applied in UNPACK mode only. -/
def serialize_intrusive_ptr {S P : Type} (ops : SerializableOps S) (up : P → S)
    (dyn : S → P) (t : P) (ser : serializer) : P × serializer :=
  let s := up t
  match ser.mode with
  | SERIALIZE_MODE.SIZER => (t, ops.size_serializable s ser)
  | SERIALIZE_MODE.PACK => (t, ops.pack_serializable s ser)
  | SERIALIZE_MODE.UNPACK =>
    let r := ops.unpack_serializable s ser
    (dyn r.1, r.2)

/-- Specialization `serialize<serializable>::operator()(serializable& o, serializer& ser)`:
`serializable* tmp = &o; serialize_intrusive_ptr(tmp, ser);`. The object is
identified with the pointer to it. -/
def serialize_serializable {S : Type} (ops : SerializableOps S) (o : S)
    (ser : serializer) : S × serializer :=
  serialize_intrusive_ptr ops (fun x => x) (fun x => x) o ser

/-- Modelled from the spec: what the serialization routine of a concrete type
visits (the classes that implement `serializable` are not among the sources;
"the concrete type's own serialization routine runs"): its fields in order,
each an unsigned primitive `w` bytes wide, an `int`, a `bool`, or a pointer to
another serializable with its type tag and its own fields. -/
inductive Fields where
  | done
  | uint (w : Nat) (v : Nat) (rest : Fields)
  | int (v : Int) (rest : Fields)
  | bool (b : Bool) (rest : Fields)
  | ptr (cls_id : Nat) (obj : Fields) (rest : Fields)
deriving DecidableEq, Repr

/-- Modelled from the spec: an object behind a `serializable*`: its runtime type
tag ("assigned centrally during a registration phase") and its fields. -/
structure Serializable where
  cls_id : Nat
  fields : Fields
deriving DecidableEq, Repr

/-- Modelled from the spec: the serialization routine of a concrete type in the
SIZE and PACK passes, whose definitions are not among the sources: the
serialize operator is applied to each field in order; for a pointer field
"first a runtime type tag is written, then the concrete type's own
serialization routine runs". `tag` is the raw representation of the type tag. -/
def pvt.serialize_order (tag : RawRepr Nat) : Fields → serializer → serializer
  | Fields.done, ser => ser
  | Fields.uint w v rest, ser => pvt.serialize_order tag rest (serialize (uintRepr w) v ser).2
  | Fields.int v rest, ser => pvt.serialize_order tag rest (serialize intRepr v ser).2
  | Fields.bool b rest, ser => pvt.serialize_order tag rest (serialize_bool b ser).2
  | Fields.ptr cls_id obj rest, ser =>
    pvt.serialize_order tag rest
      (pvt.serialize_order tag obj (ser.primitive tag cls_id).2)

/-- Modelled from the spec: `pvt::size_serializable`, declared in the header and
defined in a file that is not among the sources: the type tag is counted, then
the concrete type's routine runs on the sizing serializer. -/
def pvt.size_serializable (tag : RawRepr Nat) (s : Serializable) (ser : serializer) :
    serializer :=
  pvt.serialize_order tag s.fields (ser.primitive tag s.cls_id).2

/-- Modelled from the spec: `pvt::pack_serializable`, declared in the header and
defined in a file that is not among the sources: the type tag is written, then
the concrete type's routine runs on the packing serializer. -/
def pvt.pack_serializable (tag : RawRepr Nat) (s : Serializable) (ser : serializer) :
    serializer :=
  pvt.serialize_order tag s.fields (ser.primitive tag s.cls_id).2

/-- The three `pvt` functions with `size_serializable` and `pack_serializable`
as modelled from the spec; `unpack_serializable`, which needs the registry of
types, stays a parameter. -/
def pvt.specOps (tag : RawRepr Nat)
    (unpack : Serializable → serializer → Serializable × serializer) :
    SerializableOps Serializable where
  size_serializable := pvt.size_serializable tag
  pack_serializable := pvt.pack_serializable tag
  unpack_serializable := unpack

/-- Number of bytes the fields of an object take in the stream. -/
def Fields.byteCount (tag : RawRepr Nat) : Fields → Nat
  | Fields.done => 0
  | Fields.uint w _ rest => w + rest.byteCount tag
  | Fields.int _ rest => 4 + rest.byteCount tag
  | Fields.bool _ rest => 4 + rest.byteCount tag
  | Fields.ptr _ obj rest => tag.width + obj.byteCount tag + rest.byteCount tag

/-- The bytes the fields of an object take in the stream. -/
def Fields.bytes (tag : RawRepr Nat) : Fields → List Byte
  | Fields.done => []
  | Fields.uint w v rest => leBytes w v ++ rest.bytes tag
  | Fields.int v rest => intToBytes v ++ rest.bytes tag
  | Fields.bool b rest => intToBytes (if b then 1 else 0) ++ rest.bytes tag
  | Fields.ptr cls_id obj rest => tag.toBytes cls_id ++ obj.bytes tag ++ rest.bytes tag

/-- Record of which of the three `pvt` functions ran: each one appends its own
tag (`0` size, `1` pack, `2` unpack) to the bytes of `packed`. -/
def tracingOps : SerializableOps Nat where
  size_serializable := fun _ ser => { ser with packed := ser.packed ++ [0] }
  pack_serializable := fun _ ser => { ser with packed := ser.packed ++ [1] }
  unpack_serializable := fun s ser => (s + 1, { ser with packed := ser.packed ++ [2] })

/-! ## objectComms.h: send and recv -/

/-- One message on the transport: the operand of one `MPI_Send`, either one
`MPI_INT64_T` (the length prefix) or a run of `MPI_BYTE`. -/
inductive Message where
  | int64 (v : Int)
  | bytes (l : List Byte)
deriving DecidableEq, Repr

/-- The bytes a message carries as payload: none for the length prefix. -/
def Message.payload : Message → List Byte
  | Message.int64 _ => []
  | Message.bytes l => l

/-- Local `int32_t fragment_size = 1000000000` of `send` and of `recv`. -/
def fragment_size : Int := 1000000000

/-- The bytes `[ptr + offset, ptr + offset + count)` of a buffer. -/
def slice (buffer : List Byte) (offset count : Int) : List Byte :=
  (buffer.drop offset.toNat).take count.toNat

/-- The `while` loop of `Comms::send` and the `MPI_Send` after it, as the list
of (offset, count) operands of the payload sends, in the order they are issued.
`size` and `offset` are `int64_t`; the count of the last send is an `int`. -/
def send_loop (size offset : Int) : List (Int × Int) :=
  if size ≥ fragment_size then
    (offset, fragment_size) ::
      send_loop (toInt64 (size - fragment_size)) (toInt64 (offset + fragment_size))
  else
    [(offset, toInt32 size)]
termination_by size.toNat
decreasing_by
  simp only [fragment_size, toInt64] at *
  split <;> omega

/-- Function `Comms::send`, after `buffer = Comms::serialize(data)`: the messages
handed to `MPI_Send`, in order. The first is `int64_t size = buffer.size()`. -/
def send (buffer : List Byte) : List Message :=
  let size : Int := toInt64 buffer.length
  Message.int64 size ::
    (send_loop size 0).map (fun f => Message.bytes (slice buffer f.1 f.2))

/-- State of `Comms::recv` over a loopback transport: the receive buffer, the
messages still in flight, and the (offset, count) operands of the payload
receives issued so far. -/
structure RecvState where
  buffer : List Byte
  queue : List Message
  trace : List (Int × Int)
deriving DecidableEq, Repr

/-- Call `MPI_Recv(buffer + offset, count, MPI_BYTE, ...)`: takes the next
message in flight, which must be a run of at most `count` bytes, and stores it
at `[offset, offset + length)`. The window `[offset, offset + count)` must lie
inside the buffer. Anything else is an error (`none`). -/
def MPI_Recv_bytes (offset count : Int) (st : RecvState) : Option RecvState :=
  match st.queue with
  | Message.bytes l :: q =>
    if 0 ≤ offset ∧ 0 ≤ count ∧ offset + count ≤ st.buffer.length ∧ (l.length : Int) ≤ count then
      some { buffer := st.buffer.take offset.toNat ++ l ++
                         st.buffer.drop (offset.toNat + l.length),
             queue := q,
             trace := st.trace ++ [(offset, count)] }
    else none
  | _ => none

/-- The `while` loop of `Comms::recv` and the `MPI_Recv` after it. -/
def recv_loop (rem_size offset : Int) (st : RecvState) : Option RecvState :=
  if rem_size ≥ fragment_size then
    match MPI_Recv_bytes offset fragment_size st with
    | none => none
    | some st1 =>
      recv_loop (toInt64 (rem_size - fragment_size)) (toInt64 (offset + fragment_size)) st1
  else
    MPI_Recv_bytes offset (toInt32 rem_size) st
termination_by rem_size.toNat
decreasing_by
  simp only [fragment_size, toInt64] at *
  split <;> omega

/-- Function `Comms::recv` up to the call of `Comms::deserialize`: receives the
length prefix, allocates `new char[size]` (zero-filled here), and runs the
receive loop. The result holds the filled buffer, the messages left in flight
and the receives issued. -/
def recv (queue : List Message) : Option RecvState :=
  match queue with
  | Message.int64 size :: q =>
    if size < 0 then none
    else recv_loop size 0 { buffer := List.replicate size.toNat 0, queue := q, trace := [] }
  | _ => none

/-- Transport of a payload in one transfer, as the fragmentation is meant to
be equivalent to: the length prefix, then all the bytes in a single message. -/
def send_unfragmented (buffer : List Byte) : List Message :=
  [Message.int64 buffer.length, Message.bytes buffer]

/-- Receive side of the one-transfer transport: the length prefix, then one
receive of `size` bytes at offset 0. -/
def recv_unfragmented (queue : List Message) : Option RecvState :=
  match queue with
  | Message.int64 size :: q =>
    if size < 0 then none
    else MPI_Recv_bytes 0 size { buffer := List.replicate size.toNat 0, queue := q, trace := [] }
  | _ => none

/-! ## objectComms.h: all_gather and broadcast -/

/-- Call `MPI_Allgather(&sendSize, sizeof(int), MPI_BYTE, &allSizes, ...)`: every
participant contributes the first `sizeof(int)` bytes of its `size_t sendSize`
(the low 32 bits, on a little-endian machine), read back as an `int`. -/
def all_gather_sizes (sendSizes : List Nat) : List Int :=
  sendSizes.map (fun n => toInt32 (n : Int))

/-- One iteration of the first `for` loop of `Comms::all_gather`, on the state
(`totalBuf`, `displ`): `totalBuf += allSizes[i]; if (i > 0) displ[i] =
displ[i-1] + allSizes[i-1];`. The sums are `int` sums. -/
def all_gather_step (allSizes : List Int) (st : Int × List Int) (i : Nat) :
    Int × List Int :=
  (toInt32 (st.1 + allSizes.getD i 0),
   if i > 0 then st.2.set i (toInt32 (st.2.getD (i - 1) 0 + allSizes.getD (i - 1) 0))
   else st.2)

/-- The first `for` loop of `Comms::all_gather`, from `totalBuf = 0` and `displ`
zeroed by `memset`: the final (`totalBuf`, `displ`). -/
def all_gather_offsets (world : Nat) (allSizes : List Int) : Int × List Int :=
  (List.range world).foldl (all_gather_step allSizes) (0, List.replicate world 0)

/-- The second `for` loop of `Comms::all_gather`, after `out_data.resize(world)`:
entry `i` is `Comms::deserialize(&bigBuff[displ[i]], allSizes[i], out_data[i])`. -/
def all_gather_out {D : Type} (deserialize : List Byte → D) (world : Nat)
    (allSizes : List Int) (bigBuff : List Byte) : List D :=
  (List.range world).map (fun i =>
    deserialize
      (slice bigBuff ((all_gather_offsets world allSizes).2.getD i 0) (allSizes.getD i 0)))

/-- Root branch of `Comms::broadcast`, after `buffer = Comms::serialize(data)`:
the `int size = buffer.size()` announced by the first `MPI_Bcast`, then the
operand of the second, `buffer.size()` bytes with the count converted to `int`
(`none` when the count is negative, which `MPI_Bcast` rejects). -/
def broadcast_root (buffer : List Byte) : Int × Option (List Byte) :=
  let size : Int := toInt32 buffer.length
  let count : Int := toInt32 buffer.length
  (size, if 0 ≤ count then some (buffer.take count.toNat) else none)

/-- Non-root branch of `Comms::broadcast` up to the call of
`Comms::deserialize`: receives `size`, allocates `new char[size]` and receives
`size` bytes into it. `none` when the allocation or the receive fails: a
negative `size`, or a payload that is not `size` bytes long. -/
def broadcast_nonroot (msgs : Int × Option (List Byte)) : Option (List Byte) :=
  let size : Int := msgs.1
  if size < 0 then none
  else
    match msgs.2 with
    | none => none
    | some payload =>
      if (payload.length : Int) = size then some payload else none

/-! ## interprocess/ipctunnel.h: calculateShmemSize -/

/-- Reduction of an unsigned value to `size_t` (64 bits). -/
def toSizeT (n : Nat) : Nat := n % 18446744073709551616

/-- The sizes `calculateShmemSize` reads from its environment: `page_size` is
`sysconf(_SC_PAGESIZE)`, the others are `sizeof(CircBuff_t)`, `sizeof(MsgType)`,
`sizeof(ShareDataType)` and `sizeof(InternalSharedData)`. -/
structure ShmemSizes where
  page_size : Nat
  sizeofCircBuff : Nat
  sizeofMsg : Nat
  sizeofShare : Nat
  sizeofISD : Nat
deriving DecidableEq, Repr

/-- Local `size_t buffer` of `calculateShmemSize`:
`1 + ((sizeof(CircBuff_t) + bufferSize*sizeof(MsgType)) / page_size)`, in `size_t`
arithmetic. -/
def calculateShmemSize.buffer (z : ShmemSizes) (bufferSize : Nat) : Nat :=
  toSizeT (1 + toSizeT (z.sizeofCircBuff + toSizeT (bufferSize * z.sizeofMsg)) / z.page_size)

/-- Local `size_t shdata` of `calculateShmemSize`:
`1 + ((sizeof(ShareDataType) + sizeof(InternalSharedData)) / page_size)`. -/
def calculateShmemSize.shdata (z : ShmemSizes) : Nat :=
  toSizeT (1 + toSizeT (z.sizeofShare + z.sizeofISD) / z.page_size)

/-- Method `IPCTunnel::calculateShmemSize`:
`return (2 + shdata + numBuffers*buffer) * page_size;`, in `size_t` arithmetic. -/
def calculateShmemSize (z : ShmemSizes) (numBuffers bufferSize : Nat) : Nat :=
  toSizeT
    (toSizeT (toSizeT (2 + calculateShmemSize.shdata z) +
      toSizeT (numBuffers * calculateShmemSize.buffer z bufferSize)) * z.page_size)

/-- The size the layout asks for, in exact arithmetic:
`(2 + (1 + (S + H) / P) + numBuffers * (1 + (C + bufferSize * M) / P)) * P`. -/
def shmemSizeExact (z : ShmemSizes) (numBuffers bufferSize : Nat) : Nat :=
  (2 + (1 + (z.sizeofShare + z.sizeofISD) / z.page_size) +
    numBuffers * (1 + (z.sizeofCircBuff + bufferSize * z.sizeofMsg) / z.page_size)) *
    z.page_size

/-! ## interfaces/simpleMem.h: Request -/

namespace SimpleMem

/-- Enumeration `SimpleMem::Request::Command`. -/
inductive Command where
  | Read
  | Write
  | ReadResp
  | WriteResp
deriving DecidableEq, Repr

/-- Class `SimpleMem::Request`. `addr`, `instrPtr`, `virtualAddr` are `Addr`
(`uint64_t`), `size` is `size_t`, `flags` and `memFlags` are `flags_t`
(`uint32_t`), `id` is `id_t` (`uint64_t`), `groupId` is `uint32_t`. -/
structure Request where
  cmd : Command
  addr : Nat
  size : Nat
  data : List Nat
  flags : Nat
  memFlags : Nat
  id : Nat
  groupId : Nat
  instrPtr : Nat
  virtualAddr : Nat
deriving DecidableEq, Repr

/-- Initial value of `static std::atomic<id_t> main_id`: an object of static
storage duration starts from zero. -/
def main_id_initial : Nat := 0

/-- Constructor `Request(Command cmd, Addr addr, size_t size, dataVec &data,
flags_t flags, flags_t memFlags)`, run with the counter at `main_id`: the new
request and the new value of the counter. `id = main_id++` on a `uint64_t`. -/
def Request.new (cmd : Command) (addr size : Nat) (data : List Nat) (flags memFlags : Nat)
    (main_id : Nat) : Request × Nat :=
  ({ cmd := cmd, addr := addr, size := size, data := data, flags := flags,
     memFlags := memFlags, id := main_id, groupId := 0, instrPtr := 0, virtualAddr := 0 },
   (main_id + 1) % 18446744073709551616)

/-- Constructor `Request(Command cmd, Addr addr, size_t size, flags_t flags,
flags_t memFlags)`: `data` is left empty. -/
def Request.newNoData (cmd : Command) (addr size : Nat) (flags memFlags : Nat)
    (main_id : Nat) : Request × Nat :=
  ({ cmd := cmd, addr := addr, size := size, data := [], flags := flags,
     memFlags := memFlags, id := main_id, groupId := 0, instrPtr := 0, virtualAddr := 0 },
   (main_id + 1) % 18446744073709551616)

/-- The arguments of one construction, by either constructor. -/
inductive CtorArgs where
  | withData (cmd : Command) (addr size : Nat) (data : List Nat) (flags memFlags : Nat)
  | noData (cmd : Command) (addr size : Nat) (flags memFlags : Nat)
deriving DecidableEq, Repr

/-- Field `cmd` of the arguments. -/
def CtorArgs.cmd : CtorArgs → Command
  | withData c _ _ _ _ _ => c
  | noData c _ _ _ _ => c

/-- Field `addr` of the arguments. -/
def CtorArgs.addr : CtorArgs → Nat
  | withData _ a _ _ _ _ => a
  | noData _ a _ _ _ => a

/-- Field `size` of the arguments. -/
def CtorArgs.size : CtorArgs → Nat
  | withData _ _ s _ _ _ => s
  | noData _ _ s _ _ => s

/-- Field `flags` of the arguments. -/
def CtorArgs.flags : CtorArgs → Nat
  | withData _ _ _ _ f _ => f
  | noData _ _ _ f _ => f

/-- Field `memFlags` of the arguments. -/
def CtorArgs.memFlags : CtorArgs → Nat
  | withData _ _ _ _ _ m => m
  | noData _ _ _ _ m => m

/-- One construction, by the constructor the arguments select. -/
def construct (a : CtorArgs) (main_id : Nat) : Request × Nat :=
  match a with
  | CtorArgs.withData c ad sz d f m => Request.new c ad sz d f m main_id
  | CtorArgs.noData c ad sz f m => Request.newNoData c ad sz f m main_id

/-- A sequence of constructions, in order, threading the shared counter: the
requests built and the final value of the counter. -/
def constructAll : List CtorArgs → Nat → List Request × Nat
  | [], main_id => ([], main_id)
  | a :: rest, main_id =>
    let r := construct a main_id
    let rs := constructAll rest r.2
    (r.1 :: rs.1, rs.2)

end SimpleMem

/-! ## interprocess/ipctunnel.h: the region, its lifecycle and its queues -/

namespace Interprocess

/-- Values of `boost::interprocess::error_code_t` that the tunnel can meet. -/
inductive error_code where
  | not_found_error
  | security_error
  | already_exists_error
  | size_error
  | out_of_space_error
deriving DecidableEq, Repr

/-- Ways a call does not return normally: an `interprocess_exception` with its
code, a `boost::interprocess::bad_alloc`, undefined behaviour (a null or
out-of-range access), or a call that blocks. -/
inductive Stop where
  | raised (code : error_code)
  | bad_alloc
  | undefined
  | blocked
deriving DecidableEq, Repr

/-- Class `boost::interprocess::xsi_key`: the `key_t` that `ftok` returned. -/
structure xsi_key where
  key : Int
deriving DecidableEq, Repr

/-- What the tunnel observes of the system and of the boost allocator, none of
which is code of the tunnel. `ftok path id` is the key `ftok` computes, or the
code of the exception `xsi_key` throws when `ftok` returns -1 (no such file);
two paths may have one key. `shmget_create size` is the code with which the
system refuses to create a segment of `size` bytes under a free key (`none`: it
creates it). `manager` is the number of bytes the segment manager takes at the
start of a managed segment, and `overhead n` the number of bytes an allocation
of `n` bytes takes beyond `n` (block header, name, alignment). -/
structure Env where
  ftok : String → Nat → Except error_code Int
  shmget_create : Nat → Option error_code
  manager : Nat
  overhead : Nat → Nat

/-- Bytes of a segment that an allocation of `n` bytes takes. -/
def Env.cost (env : Env) (n : Nat) : Nat := n + env.overhead n

/-- Method `get_xsi_key`: `xsi_key(name.c_str(), 1)`, which calls `ftok` and
throws when it fails. -/
def get_xsi_key (env : Env) (name : String) : Except Stop xsi_key :=
  match env.ftok name 1 with
  | Except.ok k => Except.ok { key := k }
  | Except.error e => Except.error (Stop.raised e)

/-- Modelled from the spec: the class `CircularBuffer` of
`circularBuffer.h`, which is not among the sources: a first-in first-out queue
of fixed capacity `buffSize`. -/
structure CircularBuffer (Msg : Type) where
  buffSize : Nat
  items : List Msg

/-- Modelled from the spec: `CircularBuffer::write` enqueues when the queue has
room and blocks otherwise. -/
def CircularBuffer.write {Msg : Type} (b : CircularBuffer Msg) (m : Msg) :
    Except Stop (CircularBuffer Msg) :=
  if b.items.length < b.buffSize then Except.ok { b with items := b.items ++ [m] }
  else Except.error Stop.blocked

/-- Modelled from the spec: `CircularBuffer::read` dequeues the oldest item and
blocks when the queue is empty. -/
def CircularBuffer.read {Msg : Type} (b : CircularBuffer Msg) :
    Except Stop (Msg × CircularBuffer Msg) :=
  match b.items with
  | [] => Except.error Stop.blocked
  | m :: rest => Except.ok (m, { b with items := rest })

/-- Modelled from the spec: `CircularBuffer::readNB` returns `false` on an empty
queue, and otherwise stores the oldest item in `*result` and returns `true`. -/
def CircularBuffer.readNB {Msg : Type} (b : CircularBuffer Msg) :
    Bool × Option Msg × CircularBuffer Msg :=
  match b.items with
  | [] => (false, none, b)
  | m :: rest => (true, some m, { b with items := rest })

/-- Modelled from the spec: the bytes the constructor
`CircularBuffer(bufferSize, allocator)` takes from the segment, beside the
object itself: `bufferSize` slots of `sizeof(MsgType)` bytes (the queue holds
its capacity in the region). -/
def CircularBuffer.storage (z : ShmemSizes) (bufferSize : Nat) : Nat :=
  bufferSize * z.sizeofMsg

/-- Names of the objects of a region: `"InternalShared"`, `"Shared Data"`, and
`buffer c` for the string that `sprintf(bufName, "buffer%zu", c)` writes. -/
inductive ObjName where
  | InternalShared
  | SharedData
  | buffer (c : Nat)
deriving DecidableEq, Repr

/-- An object constructed in a region: the `InternalSharedData` header, the
user's `ShareDataType` record, or a `CircBuff_t` queue. -/
inductive ShmObject (Share Msg : Type) where
  | isd (numBuffers : Nat)
  | shared (d : Share)
  | circ (b : CircularBuffer Msg)

/-- What the user running the tunnel may do with a segment. `denied`: the
segment cannot be opened (`shmget` fails with `EACCES`). `openOnly`: `shmget`
finds the segment, but it belongs to another user, so `IPC_RMID` fails; the
tunnel does not attach such a segment (the regions the tunnel creates carry the
default permissions of boost, with which the owner alone attaches them
read-write). `readWrite`: a segment of this user: it can be opened, attached
read-write and removed. -/
inductive Access where
  | denied
  | openOnly
  | readWrite
deriving DecidableEq, Repr

/-- A shared-memory segment: its size in bytes, the bytes of it that are taken,
what this user may do with it, and the named objects constructed in it. -/
structure Segment (Share Msg : Type) where
  size : Nat
  used : Nat
  access : Access
  objects : ObjName → Option (ShmObject Share Msg)

/-- The OS namespace: under each key a segment is present or absent. -/
abbrev OS (Share Msg : Type) := xsi_key → Option (Segment Share Msg)

/-- Constructor `xsi_shared_memory(open_only, key)`: `not_found_error` when no
segment is under the key, `security_error` when it may not be opened; on success
the segment is identified by its key. -/
def xsi_open {Share Msg : Type} (os : OS Share Msg) (key : xsi_key) : Except error_code xsi_key :=
  match os key with
  | none => Except.error error_code.not_found_error
  | some seg =>
    if seg.access = Access.denied then Except.error error_code.security_error
    else Except.ok key

/-- Function `xsi_shared_memory::remove(shmid)`: `true` and the segment leaves
the namespace when `IPC_RMID` succeeds, `false` and nothing changes when it
fails. -/
def xsi_remove {Share Msg : Type} (os : OS Share Msg) (shmid : xsi_key) :
    Bool × OS Share Msg :=
  match os shmid with
  | none => (false, os)
  | some seg =>
    if seg.access = Access.readWrite then (true, Function.update os shmid none)
    else (false, os)

/-- Method `IPCTunnel::remove_old_shared_memory`: the returned `removed` and the
namespace afterwards, or the exception that leaves the function. The value
`remove` returns is dropped and `removed = true` follows the call. -/
def remove_old_shared_memory {Share Msg : Type} (os : OS Share Msg) (xkey : xsi_key) :
    Except Stop (Bool × OS Share Msg) :=
  match xsi_open os xkey with
  | Except.ok shmid => Except.ok (true, (xsi_remove os shmid).2)
  | Except.error e =>
    if e ≠ error_code.not_found_error then Except.error (Stop.raised e)
    else Except.ok (false, os)

/-- The members of an `IPCTunnel` object: the key, and the pointers `isd`,
`sharedData` and `circBuffs` into the region (`none` is a null pointer). -/
structure IPCTunnel where
  xkey : xsi_key
  isd : Option ObjName
  sharedData : Option ObjName
  circBuffs : List (Option ObjName)
deriving DecidableEq, Repr

/-- Constructor `managed_xsi_shared_memory(create_only, key, size)`: throws
`size_error` when `size` cannot hold the segment manager,
`already_exists_error` when a segment is under the key, and the system's code
when the system refuses; otherwise a fresh segment of `size` bytes in which the
segment manager is the only thing. -/
def managed_xsi_shared_memory.create_only {Share Msg : Type} (env : Env) (os : OS Share Msg)
    (key : xsi_key) (size : Nat) : Except Stop (Segment Share Msg) :=
  if size < env.manager then Except.error (Stop.raised error_code.size_error)
  else
    match os key with
    | some _ => Except.error (Stop.raised error_code.already_exists_error)
    | none =>
      match env.shmget_create size with
      | some e => Except.error (Stop.raised e)
      | none =>
        Except.ok
          { size := size, used := env.manager, access := Access.readWrite,
            objects := fun _ => none }

/-- Constructor `managed_xsi_shared_memory(open_only, key)`: opens the segment
under the key and attaches it read-write; `not_found_error` when no segment is
under the key, `security_error` when this user may not attach it. -/
def managed_xsi_shared_memory.open_only {Share Msg : Type} (os : OS Share Msg)
    (key : xsi_key) : Except Stop (Segment Share Msg) :=
  match os key with
  | none => Except.error (Stop.raised error_code.not_found_error)
  | some seg =>
    if seg.access = Access.readWrite then Except.ok seg
    else Except.error (Stop.raised error_code.security_error)

/-- An allocation of `n` bytes by the segment manager: `bad_alloc` when the
bytes left do not suffice. -/
def Segment.allocate {Share Msg : Type} (env : Env) (seg : Segment Share Msg) (n : Nat) :
    Except Stop (Segment Share Msg) :=
  if seg.used + env.cost n ≤ seg.size then
    Except.ok { seg with used := seg.used + env.cost n }
  else Except.error Stop.bad_alloc

/-- Call `shm.construct<T>(name)(...)` for a name that is new in the region:
`sizeofT` bytes are allocated and the object is stored under the name. -/
def Segment.construct {Share Msg : Type} (env : Env) (seg : Segment Share Msg)
    (name : ObjName) (sizeofT : Nat) (obj : ShmObject Share Msg) :
    Except Stop (Segment Share Msg) :=
  match seg.allocate env sizeofT with
  | Except.error e => Except.error e
  | Except.ok seg1 =>
    Except.ok { seg1 with objects := Function.update seg1.objects name (some obj) }

/-- Call `shm.find<T>(name).first`: a pointer to the object, null when the name
is not in the region. -/
def Segment.find {Share Msg : Type} (seg : Segment Share Msg) (name : ObjName) :
    Option ObjName :=
  match seg.objects name with
  | some _ => some name
  | none => none

/-- One iteration of the `for` loop of the owner constructor: construct
`buffer<c>`, whose constructor takes its slots from the segment, and push its
pointer on `circBuffs`. -/
def create_step {Share Msg : Type} (env : Env) (z : ShmemSizes) (bufferSize : Nat)
    (st : Segment Share Msg × List (Option ObjName)) (c : Nat) :
    Except Stop (Segment Share Msg × List (Option ObjName)) :=
  match st.1.construct env (ObjName.buffer c) z.sizeofCircBuff
      (ShmObject.circ { buffSize := bufferSize, items := [] }) with
  | Except.error e => Except.error e
  | Except.ok seg1 =>
    match seg1.allocate env (CircularBuffer.storage z bufferSize) with
    | Except.error e => Except.error e
    | Except.ok seg2 => Except.ok (seg2, st.2 ++ [some (ObjName.buffer c)])

/-- Constructor `IPCTunnel(region_name, numBuffers, bufferSize)`: the new handle
and the namespace when the constructor returns, or the exception that leaves
it (the namespace is then not followed further). `dflt` is the
value-initialised `ShareDataType`; the header is constructed and its
`numBuffers` set. -/
def IPCTunnel.create {Share Msg : Type} (env : Env) (z : ShmemSizes) (dflt : Share)
    (os : OS Share Msg) (region_name : String) (numBuffers bufferSize : Nat) :
    Except Stop (IPCTunnel × OS Share Msg) :=
  match get_xsi_key env region_name with
  | Except.error e => Except.error e
  | Except.ok xkey =>
    match remove_old_shared_memory os xkey with
    | Except.error e => Except.error e
    | Except.ok (_, os1) =>
      match managed_xsi_shared_memory.create_only env os1 xkey
          (calculateShmemSize z numBuffers bufferSize) with
      | Except.error e => Except.error e
      | Except.ok seg0 =>
        match seg0.construct env ObjName.InternalShared z.sizeofISD
            (ShmObject.isd numBuffers) with
        | Except.error e => Except.error e
        | Except.ok seg1 =>
          match seg1.construct env ObjName.SharedData z.sizeofShare
              (ShmObject.shared dflt) with
          | Except.error e => Except.error e
          | Except.ok seg2 =>
            match (List.range numBuffers).foldlM (create_step env z bufferSize)
                (seg2, []) with
            | Except.error e => Except.error e
            | Except.ok r =>
              Except.ok
                ({ xkey := xkey, isd := some ObjName.InternalShared,
                   sharedData := some ObjName.SharedData, circBuffs := r.2 },
                 Function.update os1 xkey (some r.1))

/-- Constructor `IPCTunnel(region_name)`: opens the region and looks up the
header, the shared record and `isd->numBuffers` queues by name. -/
def IPCTunnel.open_existing {Share Msg : Type} (env : Env) (os : OS Share Msg)
    (region_name : String) : Except Stop IPCTunnel :=
  match get_xsi_key env region_name with
  | Except.error e => Except.error e
  | Except.ok xkey =>
    match managed_xsi_shared_memory.open_only os xkey with
    | Except.error e => Except.error e
    | Except.ok seg =>
      match seg.objects ObjName.InternalShared with
      | some (ShmObject.isd numBuffers) =>
        Except.ok
          { xkey := xkey, isd := seg.find ObjName.InternalShared,
            sharedData := seg.find ObjName.SharedData,
            circBuffs := (List.range numBuffers).map (fun c => seg.find (ObjName.buffer c)) }
      | _ => Except.error Stop.undefined

/-- The loop `while (remove_old_shared_memory());` of `shutdown(true)`, run for
at most `fuel` calls: `none` when the loop has not ended by then. -/
def shutdown_loop {Share Msg : Type} : Nat → OS Share Msg → xsi_key →
    Option (Except Stop (OS Share Msg))
  | 0, _, _ => none
  | fuel + 1, os, xkey =>
    match remove_old_shared_memory os xkey with
    | Except.error e => some (Except.error e)
    | Except.ok (true, os1) => shutdown_loop fuel os1 xkey
    | Except.ok (false, os1) => some (Except.ok os1)

/-- Method `IPCTunnel::shutdown(bool all)`, its loop run for at most `fuel`
calls. -/
def IPCTunnel.shutdown {Share Msg : Type} (t : IPCTunnel) (fuel : Nat) (all : Bool)
    (os : OS Share Msg) : Option (Except Stop (OS Share Msg)) :=
  if all then shutdown_loop fuel os t.xkey
  else
    match remove_old_shared_memory os t.xkey with
    | Except.error e => some (Except.error e)
    | Except.ok r => some (Except.ok r.2)

/-- The queue `circBuffs[c]` points to, in the region under the handle's key. -/
def IPCTunnel.queue {Share Msg : Type} (t : IPCTunnel) (c : Nat) (os : OS Share Msg) :
    Option (CircularBuffer Msg) :=
  match t.circBuffs[c]? with
  | some (some name) =>
    match os t.xkey with
    | some seg =>
      match seg.objects name with
      | some (ShmObject.circ b) => some b
      | _ => none
    | none => none
  | _ => none

/-- Store a queue back in the object `circBuffs[c]` points to. -/
def IPCTunnel.setQueue {Share Msg : Type} (t : IPCTunnel) (c : Nat) (b : CircularBuffer Msg)
    (os : OS Share Msg) : OS Share Msg :=
  match t.circBuffs[c]? with
  | some (some name) =>
    match os t.xkey with
    | some seg =>
      Function.update os t.xkey
        (some { seg with objects := Function.update seg.objects name (some (ShmObject.circ b)) })
    | none => os
  | _ => os

/-- Method `IPCTunnel::writeMessage`: `circBuffs[core]->write(command)`. -/
def IPCTunnel.writeMessage {Share Msg : Type} (t : IPCTunnel) (core : Nat) (command : Msg)
    (os : OS Share Msg) : Except Stop (OS Share Msg) :=
  match t.queue core os with
  | none => Except.error Stop.undefined
  | some b =>
    match b.write command with
    | Except.error e => Except.error e
    | Except.ok b1 => Except.ok (t.setQueue core b1 os)

/-- Method `IPCTunnel::readMessage`: `circBuffs[buffer]->read()`. -/
def IPCTunnel.readMessage {Share Msg : Type} (t : IPCTunnel) (buffer : Nat)
    (os : OS Share Msg) : Except Stop (Msg × OS Share Msg) :=
  match t.queue buffer os with
  | none => Except.error Stop.undefined
  | some b =>
    match b.read with
    | Except.error e => Except.error e
    | Except.ok r => Except.ok (r.1, t.setQueue buffer r.2 os)

/-- Method `IPCTunnel::readMessageNB`: `circBuffs[buffer]->readNB(result)`; the
returned flag, the value stored in `*result` if any, and the namespace. -/
def IPCTunnel.readMessageNB {Share Msg : Type} (t : IPCTunnel) (buffer : Nat)
    (os : OS Share Msg) : Except Stop (Bool × Option Msg × OS Share Msg) :=
  match t.queue buffer os with
  | none => Except.error Stop.undefined
  | some b => Except.ok (b.readNB.1, b.readNB.2.1, t.setQueue buffer b.readNB.2.2 os)

/-- A namespace with no segment. -/
def emptyOS (Share Msg : Type) : OS Share Msg := fun _ => none

end Interprocess

namespace Interprocess

/-- A system in which the file `"tunnel"` exists, with key 4242, and no other
file does; every creation request is granted; the segment manager takes 512
bytes and an allocation 32 bytes beyond its size. -/
def tunnelEnv : Env :=
  { ftok := fun path _ =>
      if path = "tunnel" then Except.ok 4242
      else Except.error error_code.not_found_error,
    shmget_create := fun _ => none,
    manager := 512,
    overhead := fun _ => 32 }

/-- A namespace holding, under key 4242, one empty segment of 4096 bytes that
belongs to another user: it can be opened and cannot be removed. -/
def foreignRegionOS : OS Nat Nat :=
  Function.update (emptyOS Nat Nat) { key := 4242 }
    (some { size := 4096, used := 512, access := Access.openOnly, objects := fun _ => none })

/-- A handle on the region under key 4242, with no queues. -/
def tunnelHandle : IPCTunnel :=
  { xkey := { key := 4242 }, isd := some ObjName.InternalShared,
    sharedData := some ObjName.SharedData, circBuffs := [] }

end Interprocess

namespace Interprocess

end Interprocess

namespace Interprocess

/-- The segment after `m` iterations of the loop of the owner constructor have
succeeded: the queues `buffer0 .. buffer(m-1)` added, and the bytes of each
taken. -/
def Segment.withQueues {Share Msg : Type} (env : Env) (z : ShmemSizes) (bufferSize : Nat)
    (seg : Segment Share Msg) (m : Nat) : Segment Share Msg :=
  { seg with
    used := seg.used +
      m * (env.cost z.sizeofCircBuff + env.cost (CircularBuffer.storage z bufferSize)),
    objects := fun name =>
      match name with
      | ObjName.buffer c =>
        if c < m then some (ShmObject.circ { buffSize := bufferSize, items := [] })
        else seg.objects (ObjName.buffer c)
      | other => seg.objects other }

/-- The bytes the owner constructor takes from a region for `numBuffers` queues
of `bufferSize` slots: the segment manager, the header, the shared record, and
for each queue the object and its slots. -/
def regionNeed (env : Env) (z : ShmemSizes) (numBuffers bufferSize : Nat) : Nat :=
  env.manager + env.cost z.sizeofISD + env.cost z.sizeofShare +
    numBuffers * (env.cost z.sizeofCircBuff + env.cost (CircularBuffer.storage z bufferSize))

/-- The segment as the owner constructor leaves it: the header, the shared
record, and the queues `buffer0 .. buffer(numBuffers-1)`, in a fresh segment. -/
def createdSegment {Share Msg : Type} (env : Env) (z : ShmemSizes) (dflt : Share)
    (numBuffers bufferSize : Nat) : Segment Share Msg :=
  { size := calculateShmemSize z numBuffers bufferSize,
    used := regionNeed env z numBuffers bufferSize,
    access := Access.readWrite,
    objects := fun name =>
      match name with
      | ObjName.InternalShared => some (ShmObject.isd numBuffers)
      | ObjName.SharedData => some (ShmObject.shared dflt)
      | ObjName.buffer c =>
        if c < numBuffers then some (ShmObject.circ { buffSize := bufferSize, items := [] })
        else none }

/-- The handle whose `circBuffs` has `numBuffers` entries, entry `c` pointing to
`buffer<c>`, on the region under the given key. -/
def handleOn (xkey : xsi_key) (numBuffers : Nat) : IPCTunnel :=
  { xkey := xkey, isd := some ObjName.InternalShared,
    sharedData := some ObjName.SharedData,
    circBuffs := (List.range numBuffers).map (fun c => some (ObjName.buffer c)) }

end Interprocess

/-! ## Theorems: rankInfo.h -/

namespace RankInfo

theorem lt_iff (a b : RankInfo) :
    a.lt b = true ↔ a.rank < b.rank ∨ (a.rank = b.rank ∧ a.thread < b.thread) := by
  unfold lt
  by_cases h : a.rank = b.rank
  · simp [h]
  · simp [h]

theorem eq_iff (a b : RankInfo) : a.eq b = true ↔ a = b := by
  cases a; cases b
  simp [eq]

theorem gt_iff (a b : RankInfo) :
    a.gt b = true ↔ a.rank > b.rank ∨ (a.rank = b.rank ∧ a.thread > b.thread) := by
  unfold gt
  by_cases h : a.rank = b.rank
  · simp [h]
  · simp [h]

end RankInfo

/-- C1: `RankInfo::operator<` is the lexicographic order on (rank, thread); it
is irreflexive and transitive, exactly one of `a < b`, `a == b`, `b < a` holds
for every pair, and `(1,0) < (1,1)`, `(1,1) < (2,0)`. -/
theorem RankInfo.lt_lexicographic_strict_total :
    (∀ a b : RankInfo,
      a.lt b = true ↔ a.rank < b.rank ∨ (a.rank = b.rank ∧ a.thread < b.thread)) ∧
    (∀ a : RankInfo, a.lt a = false) ∧
    (∀ a b c : RankInfo, a.lt b = true → b.lt c = true → a.lt c = true) ∧
    (∀ a b : RankInfo,
      (a.lt b = true ∧ a.eq b = false ∧ b.lt a = false) ∨
      (a.lt b = false ∧ a.eq b = true ∧ b.lt a = false) ∨
      (a.lt b = false ∧ a.eq b = false ∧ b.lt a = true)) ∧
    (RankInfo.new 1 0).lt (RankInfo.new 1 1) = true ∧
    (RankInfo.new 1 1).lt (RankInfo.new 2 0) = true := by
  refine ⟨RankInfo.lt_iff, ?_, ?_, ?_, by decide, by decide⟩
  · intro a
    have h := RankInfo.lt_iff a a
    cases hl : a.lt a
    · rfl
    · rw [hl] at h; have := h.mp rfl; omega
  · intro a b c hab hbc
    rw [RankInfo.lt_iff] at *
    omega
  · intro a b
    have h1 := RankInfo.lt_iff a b
    have h2 := RankInfo.lt_iff b a
    have h3 := RankInfo.eq_iff a b
    have h4 : a = b ↔ a.rank = b.rank ∧ a.thread = b.thread := by
      cases a; cases b; simp
    rw [h4] at h3
    cases hl : a.lt b <;> cases he : a.eq b <;> cases hg : b.lt a <;>
      simp [hl, he, hg] at h1 h2 h3 ⊢ <;> omega

/-- C1 witness: transitivity applied to `(1,0) < (1,1) < (2,0)`. -/
theorem RankInfo.lt_lexicographic_strict_total_witness :
    (RankInfo.new 1 0).lt (RankInfo.new 2 0) = true :=
  RankInfo.lt_lexicographic_strict_total.2.2.1
    (RankInfo.new 1 0) (RankInfo.new 1 1) (RankInfo.new 2 0) (by decide) (by decide)

/-- C2 (as stated, refuted): the value built by `RankInfo(UNASSIGNED, 0)` has
`isAssigned() == false` although it is not the default-constructed sentinel:
its `thread` is not `UNASSIGNED`. -/
theorem RankInfo.isAssigned_false_not_only_sentinel :
    (RankInfo.new RankInfo.UNASSIGNED 0).isAssigned = false ∧
    RankInfo.new RankInfo.UNASSIGNED 0 ≠ RankInfo.unassigned ∧
    ¬ ((RankInfo.new RankInfo.UNASSIGNED 0).rank = RankInfo.UNASSIGNED ∧
       (RankInfo.new RankInfo.UNASSIGNED 0).thread = RankInfo.UNASSIGNED) := by
  decide

/-- C2 (amended): `isAssigned()` is false iff `rank == UNASSIGNED` or
`thread == UNASSIGNED`; it is false for the default-constructed sentinel, and
among the values that satisfy the data-model invariant (both fields are the
sentinel or neither is) it is false only for that sentinel. -/
theorem RankInfo.isAssigned_false_iff (r : RankInfo) :
    (r.isAssigned = false ↔
      r.rank = RankInfo.UNASSIGNED ∨ r.thread = RankInfo.UNASSIGNED) ∧
    RankInfo.unassigned.isAssigned = false ∧
    (r.bothOrNeither → (r.isAssigned = false ↔ r = RankInfo.unassigned)) := by
  have h1 : r.isAssigned = false ↔
      r.rank = RankInfo.UNASSIGNED ∨ r.thread = RankInfo.UNASSIGNED := by
    unfold RankInfo.isAssigned
    by_cases hr : r.rank = RankInfo.UNASSIGNED <;>
      by_cases ht : r.thread = RankInfo.UNASSIGNED <;> simp [hr, ht]
  refine ⟨h1, by decide, ?_⟩
  intro hinv
  rw [h1]
  cases r with
  | mk rank thread =>
    simp only [RankInfo.bothOrNeither] at hinv
    simp only [RankInfo.unassigned, RankInfo.mk.injEq]
    constructor
    · intro h
      rcases hinv with hb | hn
      · exact hb
      · rcases h with h | h
        · exact absurd h hn.1
        · exact absurd h hn.2
    · intro h
      exact Or.inl h.1

/-- C2 witness: `RankInfo(3, 4)` satisfies the invariant, is assigned and is
not the sentinel; the amended statement applied to it. -/
theorem RankInfo.isAssigned_false_iff_witness :
    (RankInfo.new 3 4).bothOrNeither ∧
    ((RankInfo.new 3 4).isAssigned = false ↔ RankInfo.new 3 4 = RankInfo.unassigned) :=
  ⟨by decide, (RankInfo.isAssigned_false_iff (RankInfo.new 3 4)).2.2 (by decide)⟩

/-- C3: `a.inRange(b)` is true iff `a.rank > b.rank` and `a.thread > b.thread`;
it implies `a > b`, and the converse fails at `a = (2,0)`, `b = (1,0)`. -/
theorem RankInfo.inRange_iff_both_strictly_greater :
    (∀ a b : RankInfo,
      a.inRange b = true ↔ a.rank > b.rank ∧ a.thread > b.thread) ∧
    (∀ a b : RankInfo, a.inRange b = true → a.gt b = true) ∧
    ((RankInfo.new 2 0).gt (RankInfo.new 1 0) = true ∧
      (RankInfo.new 2 0).inRange (RankInfo.new 1 0) = false) ∧
    (∃ a b : RankInfo, a.gt b = true ∧ a.inRange b = false) := by
  have h1 : ∀ a b : RankInfo,
      a.inRange b = true ↔ a.rank > b.rank ∧ a.thread > b.thread := by
    intro a b
    simp [RankInfo.inRange]
  refine ⟨h1, ?_, by decide, ⟨RankInfo.new 2 0, RankInfo.new 1 0, by decide, by decide⟩⟩
  intro a b h
  rw [h1] at h
  rw [RankInfo.gt_iff]
  omega

/-- C3 witness: `(2,1).inRange((1,0))` holds, hence `(2,1) > (1,0)`. -/
theorem RankInfo.inRange_iff_both_strictly_greater_witness :
    (RankInfo.new 2 1).inRange (RankInfo.new 1 0) = true ∧
    (RankInfo.new 2 1).gt (RankInfo.new 1 0) = true :=
  ⟨by decide,
   RankInfo.inRange_iff_both_strictly_greater.2.1
     (RankInfo.new 2 1) (RankInfo.new 1 0) (by decide)⟩

/-! ## Theorems: serialization -/

theorem serialize_pack {T : Type} (R : RawRepr T) (v : T) (p : serializer)
    (hp : p.mode = SERIALIZE_MODE.PACK) :
    serialize R v p = (v, { p with packed := p.packed ++ R.toBytes v }) := by
  simp [serialize, serializer.primitive, hp]

theorem serialize_unpack {T : Type} (R : RawRepr T) (t0 : T) (u : serializer)
    (hu : u.mode = SERIALIZE_MODE.UNPACK) :
    serialize R t0 u =
      (R.ofBytes (u.unpackBuf.take R.width),
       { u with unpackBuf := u.unpackBuf.drop R.width }) := by
  simp [serialize, serializer.primitive, hu]

theorem serialize_sizer {T : Type} (R : RawRepr T) (v : T) (z : serializer)
    (hz : z.mode = SERIALIZE_MODE.SIZER) :
    serialize R v z = (v, { z with sizer := z.sizer + R.width }) := by
  simp [serialize, serializer.primitive, hz]

theorem serialize_bool_pack (v : Bool) (p : serializer)
    (hp : p.mode = SERIALIZE_MODE.PACK) :
    serialize_bool v p =
      (v, { p with packed := p.packed ++ intToBytes (if v then 1 else 0) }) := by
  cases v <;> simp [serialize_bool, serializer.primitive, hp, intRepr]

theorem serialize_bool_unpack (t0 : Bool) (u : serializer)
    (hu : u.mode = SERIALIZE_MODE.UNPACK) :
    serialize_bool t0 u =
      (bytesToInt (u.unpackBuf.take 4) != 0,
       { u with unpackBuf := u.unpackBuf.drop 4 }) := by
  simp [serialize_bool, serializer.primitive, hu, intRepr]

theorem serialize_bool_sizer (v : Bool) (z : serializer)
    (hz : z.mode = SERIALIZE_MODE.SIZER) :
    serialize_bool v z = (v, { z with sizer := z.sizer + 4 }) := by
  cases v <;> simp [serialize_bool, serializer.primitive, hz, intRepr]

theorem take_toBytes_append {T : Type} (R : RawRepr T) (v : T) (rest : List Byte) :
    (R.toBytes v ++ rest).take R.width = R.toBytes v ∧
    (R.toBytes v ++ rest).drop R.width = rest := by
  have hl := R.length_toBytes v
  constructor
  · rw [← hl]; exact List.take_left' rfl
  · rw [← hl]; exact List.drop_left' rfl

/-- C4: round trip of the serialize operator. For a primitive type with raw
representation `R` and a value `v` of that type, PACK leaves `v` unchanged and
UNPACK on the bytes PACK appended (followed by any further bytes `rest`)
reconstructs `v` and consumes exactly those bytes. For `bool`: in PACK mode,
for every bool and every serializer, the operator appends the `int` 1 for true
and 0 for false and leaves the bool unchanged; in UNPACK mode, for every buffer,
whatever `int` it holds, the operator sets the bool to (int read != 0) and
consumes the four bytes of the `int` (so the `int` 2 unpacks to true); and the
round trip reconstructs `v`. -/
theorem serialize_roundtrip :
    (∀ (T : Type) (R : RawRepr T) (v t0 : T) (p u : serializer) (rest : List Byte),
      R.valid v → p.mode = SERIALIZE_MODE.PACK → u.mode = SERIALIZE_MODE.UNPACK →
      u.unpackBuf = (serialize R v p).2.packed.drop p.packed.length ++ rest →
      (serialize R v p).1 = v ∧
      (serialize R t0 u).1 = v ∧
      (serialize R t0 u).2.unpackBuf = rest) ∧
    (∀ (v : Bool) (p : serializer), p.mode = SERIALIZE_MODE.PACK →
      (serialize_bool v p).1 = v ∧
      (serialize_bool v p).2 =
        { p with packed := p.packed ++ intToBytes (if v then 1 else 0) }) ∧
    (∀ (t0 : Bool) (u : serializer), u.mode = SERIALIZE_MODE.UNPACK →
      (serialize_bool t0 u).1 = (bytesToInt (u.unpackBuf.take 4) != 0) ∧
      (serialize_bool t0 u).2 = { u with unpackBuf := u.unpackBuf.drop 4 }) ∧
    (bytesToInt [2, 0, 0, 0] = 2 ∧
      (serialize_bool false ⟨SERIALIZE_MODE.UNPACK, 0, [], [2, 0, 0, 0]⟩).1 = true ∧
      (serialize_bool true ⟨SERIALIZE_MODE.UNPACK, 0, [], [0, 0, 0, 0]⟩).1 = false) ∧
    (∀ (v t0 : Bool) (p u : serializer) (rest : List Byte),
      p.mode = SERIALIZE_MODE.PACK → u.mode = SERIALIZE_MODE.UNPACK →
      u.unpackBuf = (serialize_bool v p).2.packed.drop p.packed.length ++ rest →
      (serialize_bool t0 u).1 = v ∧
      (serialize_bool t0 u).2.unpackBuf = rest) := by
  refine ⟨?_, ?_, ?_, by decide, ?_⟩
  · intro T R v t0 p u rest hv hp hu hbuf
    rw [serialize_pack R v p hp] at hbuf ⊢
    rw [serialize_unpack R t0 u hu]
    simp only [List.drop_left] at hbuf
    obtain ⟨h1, h2⟩ := take_toBytes_append R v rest
    simp only [hbuf, h1, h2, R.ofBytes_toBytes v hv, and_self]
  · intro v p hp
    rw [serialize_bool_pack v p hp]
    exact ⟨by simp only, by simp only⟩
  · intro t0 u hu
    rw [serialize_bool_unpack t0 u hu]
    exact ⟨by simp only, by simp only⟩
  · intro v t0 p u rest hp hu hbuf
    rw [serialize_bool_pack v p hp] at hbuf
    rw [serialize_bool_unpack t0 u hu]
    simp only [List.drop_left] at hbuf
    have hval : intRepr.valid (if v then 1 else 0) := by
      show (-2147483648 : Int) ≤ _ ∧ _ < (2147483648 : Int)
      cases v <;> norm_num
    obtain ⟨h1, h2⟩ := take_toBytes_append intRepr (if v then 1 else 0) rest
    have h3 := intRepr.ofBytes_toBytes _ hval
    simp only [intRepr] at h1 h2 h3
    refine ⟨?_, ?_⟩
    · simp only [hbuf, h1, h3]
      cases v <;> simp
    · simp only [hbuf, h2]

/-- C4 witness: the `int` -5 and the bool `true`, packed by a fresh serializer
after the byte 7 and unpacked from the bytes that were appended; and the bool
unpacked from the `int` 258, which is neither 0 nor 1. -/
theorem serialize_roundtrip_witness :
    ((serialize intRepr (-5) ⟨SERIALIZE_MODE.PACK, 0, [7], []⟩).1 = -5 ∧
      (serialize intRepr 0 ⟨SERIALIZE_MODE.UNPACK, 0, [], [251, 255, 255, 255, 9]⟩).1 = -5 ∧
      (serialize intRepr 0
        ⟨SERIALIZE_MODE.UNPACK, 0, [], [251, 255, 255, 255, 9]⟩).2.unpackBuf = [9]) ∧
    (serialize_bool false ⟨SERIALIZE_MODE.UNPACK, 0, [], [1, 0, 0, 0]⟩).1 = true ∧
    (serialize_bool false ⟨SERIALIZE_MODE.UNPACK, 0, [], [2, 1, 0, 0, 9]⟩).1 =
      (bytesToInt [2, 1, 0, 0] != 0) :=
  ⟨serialize_roundtrip.1 Int intRepr (-5) 0 ⟨SERIALIZE_MODE.PACK, 0, [7], []⟩
      ⟨SERIALIZE_MODE.UNPACK, 0, [], [251, 255, 255, 255, 9]⟩ [9]
      (show (-2147483648 : Int) ≤ -5 ∧ (-5 : Int) < 2147483648 by decide) rfl rfl
      (by decide),
   (serialize_roundtrip.2.2.2.2 true false ⟨SERIALIZE_MODE.PACK, 0, [], []⟩
      ⟨SERIALIZE_MODE.UNPACK, 0, [], [1, 0, 0, 0]⟩ [] rfl rfl (by decide)).1,
   (serialize_roundtrip.2.2.1 false
      ⟨SERIALIZE_MODE.UNPACK, 0, [], [2, 1, 0, 0, 9]⟩ rfl).1⟩

theorem primitive_sizer {T : Type} (R : RawRepr T) (v : T) (z : serializer)
    (hz : z.mode = SERIALIZE_MODE.SIZER) :
    (z.primitive R v).2 = { z with sizer := z.sizer + R.width } := by
  simp [serializer.primitive, hz]

theorem primitive_pack {T : Type} (R : RawRepr T) (v : T) (p : serializer)
    (hp : p.mode = SERIALIZE_MODE.PACK) :
    (p.primitive R v).2 = { p with packed := p.packed ++ R.toBytes v } := by
  simp [serializer.primitive, hp]

/-- In the sizing pass the routine of a concrete type adds the byte count of
its fields. -/
theorem serialize_order_sizer (tag : RawRepr Nat) (f : Fields) :
    ∀ z : serializer, z.mode = SERIALIZE_MODE.SIZER →
    pvt.serialize_order tag f z = { z with sizer := z.sizer + f.byteCount tag } := by
  induction f with
  | done => intro z _; rfl
  | uint w v rest ih =>
    intro z hz
    rw [pvt.serialize_order, serialize_sizer _ _ z hz,
      ih { z with sizer := z.sizer + (uintRepr w).width } hz]
    simp [Fields.byteCount, uintRepr, Nat.add_assoc]
  | int v rest ih =>
    intro z hz
    rw [pvt.serialize_order, serialize_sizer _ _ z hz,
      ih { z with sizer := z.sizer + intRepr.width } hz]
    simp [Fields.byteCount, intRepr, Nat.add_assoc]
  | bool b rest ih =>
    intro z hz
    rw [pvt.serialize_order, serialize_bool_sizer _ z hz,
      ih { z with sizer := z.sizer + 4 } hz]
    simp [Fields.byteCount, Nat.add_assoc]
  | ptr cls_id obj rest ih1 ih2 =>
    intro z hz
    rw [pvt.serialize_order, primitive_sizer tag cls_id z hz,
      ih1 { z with sizer := z.sizer + tag.width } hz,
      ih2 { z with sizer := z.sizer + tag.width + obj.byteCount tag } hz]
    simp [Fields.byteCount, Nat.add_assoc]

/-- In the packing pass the routine of a concrete type appends the bytes of its
fields. -/
theorem serialize_order_pack (tag : RawRepr Nat) (f : Fields) :
    ∀ p : serializer, p.mode = SERIALIZE_MODE.PACK →
    pvt.serialize_order tag f p = { p with packed := p.packed ++ f.bytes tag } := by
  induction f with
  | done => intro p _; simp [pvt.serialize_order, Fields.bytes]
  | uint w v rest ih =>
    intro p hp
    rw [pvt.serialize_order, serialize_pack _ _ p hp,
      ih { p with packed := p.packed ++ (uintRepr w).toBytes v } hp]
    simp [Fields.bytes, uintRepr, List.append_assoc]
  | int v rest ih =>
    intro p hp
    rw [pvt.serialize_order, serialize_pack _ _ p hp,
      ih { p with packed := p.packed ++ intRepr.toBytes v } hp]
    simp [Fields.bytes, intRepr, List.append_assoc]
  | bool b rest ih =>
    intro p hp
    rw [pvt.serialize_order, serialize_bool_pack _ p hp,
      ih { p with packed := p.packed ++ intToBytes (if b then 1 else 0) } hp]
    simp [Fields.bytes, List.append_assoc]
  | ptr cls_id obj rest ih1 ih2 =>
    intro p hp
    rw [pvt.serialize_order, primitive_pack tag cls_id p hp,
      ih1 { p with packed := p.packed ++ tag.toBytes cls_id } hp,
      ih2 { p with packed := p.packed ++ tag.toBytes cls_id ++ obj.bytes tag } hp]
    simp [Fields.bytes, List.append_assoc]

theorem Fields.bytes_length (tag : RawRepr Nat) (f : Fields) :
    (f.bytes tag).length = f.byteCount tag := by
  induction f with
  | done => rfl
  | uint w v rest ih => simp [Fields.bytes, Fields.byteCount, leBytes_length, ih]
  | int v rest ih =>
    have hl : (intToBytes v).length = 4 := leBytes_length 4 _
    simp [Fields.bytes, Fields.byteCount, hl, ih]
  | bool b rest ih =>
    have hl : (intToBytes (if b then 1 else 0)).length = 4 := leBytes_length 4 _
    simp [Fields.bytes, Fields.byteCount, hl, ih]
  | ptr cls_id obj rest ih1 ih2 =>
    simp [Fields.bytes, Fields.byteCount, tag.length_toBytes, ih1, ih2, Nat.add_assoc]

/-- The sizing and the packing of an object behind a pointer, as modelled from
the spec: the same number of bytes, the tag and then the fields. -/
theorem size_pack_serializable (tag : RawRepr Nat) (s : Serializable) (z p : serializer)
    (hz : z.mode = SERIALIZE_MODE.SIZER) (hp : p.mode = SERIALIZE_MODE.PACK) :
    pvt.size_serializable tag s z =
      { z with sizer := z.sizer + (tag.width + s.fields.byteCount tag) } ∧
    pvt.pack_serializable tag s p =
      { p with packed := p.packed ++ (tag.toBytes s.cls_id ++ s.fields.bytes tag) } ∧
    (tag.toBytes s.cls_id ++ s.fields.bytes tag).length =
      tag.width + s.fields.byteCount tag := by
  refine ⟨?_, ?_, ?_⟩
  · rw [pvt.size_serializable, primitive_sizer tag _ z hz,
      serialize_order_sizer tag _ { z with sizer := z.sizer + tag.width } hz]
    simp [Nat.add_assoc]
  · rw [pvt.pack_serializable, primitive_pack tag _ p hp,
      serialize_order_pack tag _ { p with packed := p.packed ++ tag.toBytes s.cls_id } hp]
    simp [List.append_assoc]
  · rw [List.length_append, tag.length_toBytes, Fields.bytes_length]

/-- C5: the byte count of SIZER equals the number of bytes PACK writes, for
every value the operator handles. For a primitive type both are `sizeof(T)`;
for `bool` both are the width of an `int` (4), which is what the generic
operator would not give for a one-byte native bool; for a pointer to a
serializable each mode runs exactly one of `size_serializable`,
`pack_serializable`, `unpack_serializable`, and SIZER and PACK leave the pointer
unchanged; and with `size_serializable` and `pack_serializable` as the spec
describes them (the type tag, then the routine of the concrete type over its
fields, nested pointers included), the three pointer operators count in SIZER
exactly the bytes they write in PACK: the tag and the bytes of the fields. -/
theorem sizer_count_eq_pack_bytes :
    (∀ (T : Type) (R : RawRepr T) (v : T) (z p : serializer),
      z.mode = SERIALIZE_MODE.SIZER → p.mode = SERIALIZE_MODE.PACK →
      (serialize R v z).2.sizer - z.sizer =
        (serialize R v p).2.packed.length - p.packed.length ∧
      (serialize R v z).2.sizer = z.sizer + R.width ∧
      (serialize R v p).2.packed.length = p.packed.length + R.width) ∧
    (∀ (v : Bool) (z p : serializer),
      z.mode = SERIALIZE_MODE.SIZER → p.mode = SERIALIZE_MODE.PACK →
      (serialize_bool v z).2.sizer - z.sizer =
        (serialize_bool v p).2.packed.length - p.packed.length ∧
      (serialize_bool v z).2.sizer = z.sizer + intRepr.width ∧
      (serialize_bool v p).2.packed.length = p.packed.length + intRepr.width ∧
      intRepr.width = 4 ∧
      (serialize_bool v z).2.sizer ≠
        (serialize (uintRepr 1) (if v then 1 else 0) z).2.sizer) ∧
    (∀ (S P : Type) (ops : SerializableOps S) (up : P → S) (down : S → P)
      (s : P) (ser : serializer),
      (ser.mode = SERIALIZE_MODE.SIZER →
        serialize_ptr ops up down s ser =
          (down (up s), ops.size_serializable (up s) ser)) ∧
      (ser.mode = SERIALIZE_MODE.PACK →
        serialize_ptr ops up down s ser =
          (down (up s), ops.pack_serializable (up s) ser)) ∧
      (ser.mode = SERIALIZE_MODE.UNPACK →
        serialize_ptr ops up down s ser =
          (down (ops.unpack_serializable (up s) ser).1,
           (ops.unpack_serializable (up s) ser).2)) ∧
      ((∀ x, down (up x) = x) → ser.mode ≠ SERIALIZE_MODE.UNPACK →
        (serialize_ptr ops up down s ser).1 = s)) ∧
    (∀ (S : Type) (ops : SerializableOps S) (s : S) (ser : serializer),
      (ser.mode = SERIALIZE_MODE.SIZER →
        serialize_serializable_ptr ops s ser = (s, ops.size_serializable s ser)) ∧
      (ser.mode = SERIALIZE_MODE.PACK →
        serialize_serializable_ptr ops s ser = (s, ops.pack_serializable s ser)) ∧
      (ser.mode = SERIALIZE_MODE.UNPACK →
        serialize_serializable_ptr ops s ser = ops.unpack_serializable s ser)) ∧
    (∀ (tag : RawRepr Nat)
      (unpack : Serializable → serializer → Serializable × serializer)
      (P : Type) (up : P → Serializable) (down : Serializable → P) (s : P)
      (z p : serializer),
      z.mode = SERIALIZE_MODE.SIZER → p.mode = SERIALIZE_MODE.PACK →
      (serialize_ptr (pvt.specOps tag unpack) up down s z).2.sizer - z.sizer =
        (serialize_ptr (pvt.specOps tag unpack) up down s p).2.packed.length -
          p.packed.length ∧
      (serialize_ptr (pvt.specOps tag unpack) up down s z).2.sizer =
        z.sizer + (tag.width + (up s).fields.byteCount tag) ∧
      (serialize_ptr (pvt.specOps tag unpack) up down s p).2.packed =
        p.packed ++ (tag.toBytes (up s).cls_id ++ (up s).fields.bytes tag) ∧
      (serialize_ptr (pvt.specOps tag unpack) up down s p).2.packed.length =
        p.packed.length + (tag.width + (up s).fields.byteCount tag)) ∧
    (∀ (tag : RawRepr Nat)
      (unpack : Serializable → serializer → Serializable × serializer)
      (s : Serializable) (z p : serializer),
      z.mode = SERIALIZE_MODE.SIZER → p.mode = SERIALIZE_MODE.PACK →
      ((serialize_serializable_ptr (pvt.specOps tag unpack) s z).2.sizer - z.sizer =
        (serialize_serializable_ptr (pvt.specOps tag unpack) s p).2.packed.length -
          p.packed.length ∧
       (serialize_serializable_ptr (pvt.specOps tag unpack) s z).2.sizer =
        z.sizer + (tag.width + s.fields.byteCount tag) ∧
       (serialize_serializable_ptr (pvt.specOps tag unpack) s p).2.packed.length =
        p.packed.length + (tag.width + s.fields.byteCount tag)) ∧
      ((serialize_serializable (pvt.specOps tag unpack) s z).2.sizer - z.sizer =
        (serialize_serializable (pvt.specOps tag unpack) s p).2.packed.length -
          p.packed.length ∧
       (serialize_serializable (pvt.specOps tag unpack) s z).2.sizer =
        z.sizer + (tag.width + s.fields.byteCount tag) ∧
       (serialize_serializable (pvt.specOps tag unpack) s p).2.packed.length =
        p.packed.length + (tag.width + s.fields.byteCount tag))) := by
  refine ⟨?_, ?_, ?_, ?_, ?_, ?_⟩
  · intro T R v z p hz hp
    rw [serialize_sizer R v z hz, serialize_pack R v p hp]
    simp [R.length_toBytes v]
  · intro v z p hz hp
    rw [serialize_bool_sizer v z hz, serialize_bool_pack v p hp,
      serialize_sizer _ _ z hz]
    have hl : (intToBytes (if v then 1 else 0)).length = 4 := leBytes_length 4 _
    simp [hl, intRepr, uintRepr]
  · intro S P ops up down s ser
    refine ⟨?_, ?_, ?_, ?_⟩
    · intro h; simp [serialize_ptr, h]
    · intro h; simp [serialize_ptr, h]
    · intro h; simp [serialize_ptr, h]
    · intro hcast h
      cases hm : ser.mode
      · simp [serialize_ptr, hm, hcast]
      · simp [serialize_ptr, hm, hcast]
      · exact absurd hm h
  · intro S ops s ser
    refine ⟨?_, ?_, ?_⟩ <;> intro h <;> simp [serialize_serializable_ptr, h]
  · intro tag unpack P up down s z p hz hp
    obtain ⟨h1, h2, h3⟩ := size_pack_serializable tag (up s) z p hz hp
    have e1 : (serialize_ptr (pvt.specOps tag unpack) up down s z).2 =
        pvt.size_serializable tag (up s) z := by
      simp [serialize_ptr, hz, pvt.specOps]
    have e2 : (serialize_ptr (pvt.specOps tag unpack) up down s p).2 =
        pvt.pack_serializable tag (up s) p := by
      simp [serialize_ptr, hp, pvt.specOps]
    rw [e1, e2, h1, h2]
    have h4 : (p.packed ++ (tag.toBytes (up s).cls_id ++ (up s).fields.bytes tag)).length =
        p.packed.length + (tag.width + (up s).fields.byteCount tag) := by
      rw [List.length_append, h3]
    refine ⟨?_, rfl, rfl, h4⟩
    show z.sizer + (tag.width + (up s).fields.byteCount tag) - z.sizer = _ - p.packed.length
    rw [h4]; omega
  · intro tag unpack s z p hz hp
    obtain ⟨h1, h2, h3⟩ := size_pack_serializable tag s z p hz hp
    have e1 : (serialize_serializable_ptr (pvt.specOps tag unpack) s z).2 =
        pvt.size_serializable tag s z := by
      simp [serialize_serializable_ptr, hz, pvt.specOps]
    have e2 : (serialize_serializable_ptr (pvt.specOps tag unpack) s p).2 =
        pvt.pack_serializable tag s p := by
      simp [serialize_serializable_ptr, hp, pvt.specOps]
    have e3 : (serialize_serializable (pvt.specOps tag unpack) s z).2 =
        pvt.size_serializable tag s z := by
      simp [serialize_serializable, serialize_intrusive_ptr, hz, pvt.specOps]
    have e4 : (serialize_serializable (pvt.specOps tag unpack) s p).2 =
        pvt.pack_serializable tag s p := by
      simp [serialize_serializable, serialize_intrusive_ptr, hp, pvt.specOps]
    rw [e1, e2, e3, e4, h1, h2]
    have h4 : (p.packed ++ (tag.toBytes s.cls_id ++ s.fields.bytes tag)).length =
        p.packed.length + (tag.width + s.fields.byteCount tag) := by
      rw [List.length_append, h3]
    have h5 : z.sizer + (tag.width + s.fields.byteCount tag) - z.sizer =
        (p.packed ++ (tag.toBytes s.cls_id ++ s.fields.bytes tag)).length - p.packed.length := by
      rw [h4]; omega
    exact ⟨⟨h5, rfl, h4⟩, h5, rfl, h4⟩

/-- C5 witness: an `int` and a bool each count 4 bytes and write 4 bytes; with
the tracing functions on a pointer at address 16 (base subobject at offset 8),
SIZER runs `size_serializable` alone and leaves the pointer at 16; and an
object of type tag 7 with a 2-byte field, a bool and a pointer to an object of
type tag 9 holding an `int` counts, and writes, 4 + 2 + 4 + 4 + 4 bytes. -/
theorem sizer_count_eq_pack_bytes_witness :
    ((serialize intRepr 77 ⟨SERIALIZE_MODE.SIZER, 3, [], []⟩).2.sizer = 3 + 4 ∧
      (serialize intRepr 77 ⟨SERIALIZE_MODE.PACK, 0, [5], []⟩).2.packed.length = 1 + 4) ∧
    ((serialize_bool true ⟨SERIALIZE_MODE.SIZER, 3, [], []⟩).2.sizer = 3 + 4 ∧
      (serialize_bool true ⟨SERIALIZE_MODE.PACK, 0, [5], []⟩).2.packed.length = 1 + 4) ∧
    serialize_ptr tracingOps (fun x => x + 8) (fun x => x - 8) 16
        ⟨SERIALIZE_MODE.SIZER, 0, [], []⟩ =
      (16, ⟨SERIALIZE_MODE.SIZER, 0, [0], []⟩) ∧
    serialize_serializable_ptr tracingOps 16 ⟨SERIALIZE_MODE.PACK, 0, [], []⟩ =
      (16, ⟨SERIALIZE_MODE.PACK, 0, [1], []⟩) ∧
    ((serialize_serializable_ptr (pvt.specOps (uintRepr 4) (fun s ser => (s, ser)))
        ⟨7, Fields.uint 2 513 (Fields.bool true
          (Fields.ptr 9 (Fields.int (-1) Fields.done) Fields.done))⟩
        ⟨SERIALIZE_MODE.SIZER, 0, [], []⟩).2.sizer = 0 + (4 + (2 + (4 + (4 + (4 + 0) + 0)))) ∧
     (serialize_serializable_ptr (pvt.specOps (uintRepr 4) (fun s ser => (s, ser)))
        ⟨7, Fields.uint 2 513 (Fields.bool true
          (Fields.ptr 9 (Fields.int (-1) Fields.done) Fields.done))⟩
        ⟨SERIALIZE_MODE.PACK, 0, [], []⟩).2.packed.length =
          0 + (4 + (2 + (4 + (4 + (4 + 0) + 0))))) :=
  ⟨(sizer_count_eq_pack_bytes.1 Int intRepr 77 ⟨SERIALIZE_MODE.SIZER, 3, [], []⟩
      ⟨SERIALIZE_MODE.PACK, 0, [5], []⟩ rfl rfl).2,
   ⟨(sizer_count_eq_pack_bytes.2.1 true ⟨SERIALIZE_MODE.SIZER, 3, [], []⟩
      ⟨SERIALIZE_MODE.PACK, 0, [5], []⟩ rfl rfl).2.1,
    (sizer_count_eq_pack_bytes.2.1 true ⟨SERIALIZE_MODE.SIZER, 3, [], []⟩
      ⟨SERIALIZE_MODE.PACK, 0, [5], []⟩ rfl rfl).2.2.1⟩,
   (sizer_count_eq_pack_bytes.2.2.1 Nat Nat tracingOps (fun x => x + 8) (fun x => x - 8) 16
      ⟨SERIALIZE_MODE.SIZER, 0, [], []⟩).1 rfl,
   (sizer_count_eq_pack_bytes.2.2.2.1 Nat tracingOps 16
      ⟨SERIALIZE_MODE.PACK, 0, [], []⟩).2.1 rfl,
   ((sizer_count_eq_pack_bytes.2.2.2.2.2 (uintRepr 4) (fun s ser => (s, ser))
      ⟨7, Fields.uint 2 513 (Fields.bool true
        (Fields.ptr 9 (Fields.int (-1) Fields.done) Fields.done))⟩
      ⟨SERIALIZE_MODE.SIZER, 0, [], []⟩ ⟨SERIALIZE_MODE.PACK, 0, [], []⟩ rfl rfl).1).2⟩

/-! ## Theorems: send and recv -/

theorem toInt64_of_nonneg_lt (x : Int) (h0 : 0 ≤ x) (h1 : x < 9223372036854775808) :
    toInt64 x = x := by
  unfold toInt64
  split <;> omega

theorem toInt32_of_nonneg_lt (x : Int) (h0 : 0 ≤ x) (h1 : x < 2147483648) :
    toInt32 x = x := by
  unfold toInt32
  split <;> omega

theorem send_loop_step (r o : Nat) (hr : 1000000000 ≤ r)
    (hb : o + r < 9223372036854775808) :
    send_loop (r : Int) (o : Int) =
      ((o : Int), (1000000000 : Int)) ::
        send_loop ((r - 1000000000 : Nat) : Int) ((o + 1000000000 : Nat) : Int) := by
  rw [send_loop]
  have hge : (r : Int) ≥ fragment_size := by
    simp only [fragment_size]; omega
  rw [if_pos hge]
  have e1 : toInt64 ((r : Int) - fragment_size) = ((r - 1000000000 : Nat) : Int) := by
    simp only [fragment_size]
    rw [toInt64_of_nonneg_lt _ (by omega) (by omega)]
    omega
  have e2 : toInt64 ((o : Int) + fragment_size) = ((o + 1000000000 : Nat) : Int) := by
    simp only [fragment_size]
    rw [toInt64_of_nonneg_lt _ (by omega) (by omega)]
    omega
  rw [e1, e2]
  simp [fragment_size]

theorem send_loop_last (r o : Nat) (hr : r < 1000000000) :
    send_loop (r : Int) (o : Int) = [((o : Int), (r : Int))] := by
  rw [send_loop]
  have hnot : ¬ ((r : Int) ≥ fragment_size) := by
    simp only [fragment_size]; omega
  rw [if_neg hnot, toInt32_of_nonneg_lt _ (by omega) (by omega)]

theorem slice_natCast (buffer : List Byte) (o c : Nat) :
    slice buffer (o : Int) (c : Int) = (buffer.drop o).take c := by
  simp [slice]

/-- The slices sent by the loop, put end to end, are the buffer from `o` on. -/
theorem send_loop_flatten (buffer : List Byte) (k : Nat) : ∀ (r o : Nat),
    r / 1000000000 = k → o + r = buffer.length →
    buffer.length < 9223372036854775808 →
    ((send_loop (r : Int) (o : Int)).map (fun f => slice buffer f.1 f.2)).flatten =
      buffer.drop o := by
  induction k with
  | zero =>
    intro r o hk hlen hb
    have hr : r < 1000000000 := by omega
    rw [send_loop_last r o hr]
    rw [List.map_cons, List.map_nil, List.flatten_cons, List.flatten_nil,
      List.append_nil, slice_natCast]
    apply List.take_of_length_le
    rw [List.length_drop]
    omega
  | succ k ih =>
    intro r o hk hlen hb
    have hr : 1000000000 ≤ r := by omega
    rw [send_loop_step r o hr (by omega)]
    have e := slice_natCast buffer o 1000000000
    simp only [Nat.cast_ofNat] at e
    rw [List.map_cons, List.flatten_cons, e]
    rw [ih (r - 1000000000) (o + 1000000000) (by omega) (by omega) hb]
    rw [← List.drop_drop, List.take_append_drop]

/-- Closed form of the sends issued by the loop of `send`: `k` full fragments,
then one of `r % 1000000000` bytes. -/
theorem send_loop_closed (k : Nat) : ∀ (r o : Nat), r / 1000000000 = k →
    o + r < 9223372036854775808 →
    send_loop (r : Int) (o : Int) =
      (List.range k).map
        (fun i => (((o + i * 1000000000 : Nat) : Int), (1000000000 : Int))) ++
      [(((o + k * 1000000000 : Nat) : Int), ((r % 1000000000 : Nat) : Int))] := by
  induction k with
  | zero =>
    intro r o hk hb
    have hr : r < 1000000000 := by omega
    rw [send_loop_last r o hr]
    simp [Nat.mod_eq_of_lt hr]
  | succ k ih =>
    intro r o hk hb
    have hr : 1000000000 ≤ r := by omega
    rw [send_loop_step r o hr hb, ih (r - 1000000000) (o + 1000000000) (by omega) (by omega)]
    rw [List.range_succ_eq_map, List.map_cons, List.map_map, List.cons_append]
    have e3 : (r - 1000000000) % 1000000000 = r % 1000000000 := by omega
    have e4 : o + 1000000000 + k * 1000000000 = o + (k + 1) * 1000000000 := by ring
    have e5 : (fun i => (((o + 1000000000 + i * 1000000000 : Nat) : Int), (1000000000 : Int))) =
        (fun i => (((o + i * 1000000000 : Nat) : Int), (1000000000 : Int))) ∘ Nat.succ := by
      funext i
      have e : o + 1000000000 + i * 1000000000 = o + (i + 1) * 1000000000 := by ring
      simp only [Function.comp, Nat.succ_eq_add_one, e]
    rw [e3, e4, e5]
    simp

theorem send_eq (buffer : List Byte) :
    send buffer =
      Message.int64 (toInt64 buffer.length) ::
        (send_loop (toInt64 buffer.length) 0).map
          (fun f => Message.bytes (slice buffer f.1 f.2)) := rfl

/-- The messages of `send`, with the loop in closed form. -/
theorem send_closed (buffer : List Byte) (h : buffer.length < 9223372036854775808) :
    send buffer =
      Message.int64 buffer.length ::
        ((List.range (buffer.length / 1000000000)).map
          (fun i => Message.bytes ((buffer.drop (i * 1000000000)).take 1000000000)) ++
        [Message.bytes ((buffer.drop (buffer.length / 1000000000 * 1000000000)).take
          (buffer.length % 1000000000))]) := by
  rw [send_eq, toInt64_of_nonneg_lt _ (by omega) (by omega)]
  have hc := send_loop_closed (buffer.length / 1000000000) buffer.length 0 rfl (by omega)
  rw [Nat.cast_zero] at hc
  rw [hc, List.map_append, List.map_map, List.map_cons, List.map_nil]
  have e := fun (o : Nat) => slice_natCast buffer o 1000000000
  simp only [Nat.cast_ofNat] at e
  simp only [Function.comp_def, slice_natCast, e, Nat.zero_add]

/-- C6: `Comms::send` on a payload of `n` bytes transmits `n` as one 64-bit
integer and then `n / 1000000000 + 1` fragments: fragment `i` for
`i < n / 1000000000` is the 1,000,000,000 bytes at offset `i * 1000000000`, the
last is the `n % 1000000000` bytes (fewer than 1,000,000,000) that remain, and
the fragments in transmission order, put end to end, are the payload. The
payload is a `std::vector<char>`, whose size is below `2^63`. -/
theorem send_prefix_then_fragments (buffer : List Byte)
    (h : buffer.length < 9223372036854775808) :
    (send buffer)[0]? = some (Message.int64 buffer.length) ∧
    (send buffer).length = 1 + (buffer.length / 1000000000 + 1) ∧
    (∀ i, i < buffer.length / 1000000000 →
      (send buffer)[1 + i]? =
        some (Message.bytes ((buffer.drop (i * 1000000000)).take 1000000000)) ∧
      ((buffer.drop (i * 1000000000)).take 1000000000).length = 1000000000) ∧
    (send buffer)[1 + buffer.length / 1000000000]? =
      some (Message.bytes ((buffer.drop (buffer.length / 1000000000 * 1000000000)).take
        (buffer.length % 1000000000))) ∧
    ((buffer.drop (buffer.length / 1000000000 * 1000000000)).take
      (buffer.length % 1000000000)).length = buffer.length % 1000000000 ∧
    buffer.length % 1000000000 < 1000000000 ∧
    ((send buffer).tail.map Message.payload).flatten = buffer := by
  have hc := send_closed buffer h
  refine ⟨?_, ?_, ?_, ?_, ?_, ?_, ?_⟩
  · rw [hc, List.getElem?_cons_zero]
  · rw [hc]
    simp only [List.length_cons, List.length_append, List.length_map, List.length_range,
      List.length_nil]
    omega
  · intro i hi
    constructor
    · rw [hc, Nat.add_comm 1 i, List.getElem?_cons_succ,
        List.getElem?_append_left (by simp only [List.length_map, List.length_range]; exact hi),
        List.getElem?_map, List.getElem?_range hi]
      rfl
    · rw [List.length_take, List.length_drop]
      omega
  · rw [hc, Nat.add_comm 1 _, List.getElem?_cons_succ,
      List.getElem?_append_right (by simp only [List.length_map, List.length_range]; exact le_refl _)]
    simp only [List.length_map, List.length_range, Nat.sub_self, List.getElem?_cons_zero]
  · rw [List.length_take, List.length_drop]
    omega
  · omega
  · rw [send_eq, List.tail_cons, toInt64_of_nonneg_lt _ (by omega) (by omega), List.map_map]
    have hf : (Message.payload ∘ fun f : Int × Int => Message.bytes (slice buffer f.1 f.2)) =
        fun f => slice buffer f.1 f.2 := by
      funext f; rfl
    rw [hf]
    have := send_loop_flatten buffer (buffer.length / 1000000000) buffer.length 0 rfl
      (by omega) h
    rw [Nat.cast_zero] at this
    rw [this, List.drop_zero]

/-- C6 witness: a payload of three bytes. -/
theorem send_prefix_then_fragments_witness :
    (send [10, 20, 30])[0]? = some (Message.int64 3) ∧
    (send [10, 20, 30])[1]? = some (Message.bytes [10, 20, 30]) ∧
    ((send [10, 20, 30]).tail.map Message.payload).flatten = [10, 20, 30] :=
  ⟨(send_prefix_then_fragments [10, 20, 30] (by decide)).1,
   (send_prefix_then_fragments [10, 20, 30] (by decide)).2.2.2.1,
   (send_prefix_then_fragments [10, 20, 30] (by decide)).2.2.2.2.2.2⟩

theorem MPI_Recv_bytes_ok (o c : Nat) (buf l : List Byte) (q : List Message)
    (tr : List (Int × Int)) (hw : o + c ≤ buf.length) (hl : l.length ≤ c) :
    MPI_Recv_bytes (o : Int) (c : Int) { buffer := buf, queue := Message.bytes l :: q, trace := tr } =
      some { buffer := buf.take o ++ l ++ buf.drop (o + l.length),
             queue := q,
             trace := tr ++ [((o : Int), (c : Int))] } := by
  have hcond : (0 : Int) ≤ (o : Int) ∧ (0 : Int) ≤ (c : Int) ∧
      (o : Int) + (c : Int) ≤ ((buf.length : Nat) : Int) ∧ ((l.length : Nat) : Int) ≤ (c : Int) := by
    omega
  simp only [MPI_Recv_bytes, hcond, and_self, if_true, Int.toNat_ofNat]

theorem recv_loop_step (r o : Nat) (st : RecvState) (hr : 1000000000 ≤ r)
    (hb : o + r < 9223372036854775808) :
    recv_loop (r : Int) (o : Int) st =
      match MPI_Recv_bytes (o : Int) (1000000000 : Int) st with
      | none => none
      | some st1 =>
        recv_loop ((r - 1000000000 : Nat) : Int) ((o + 1000000000 : Nat) : Int) st1 := by
  rw [recv_loop]
  have hge : (r : Int) ≥ fragment_size := by
    simp only [fragment_size]; omega
  rw [if_pos hge]
  have e1 : toInt64 ((r : Int) - fragment_size) = ((r - 1000000000 : Nat) : Int) := by
    simp only [fragment_size]
    rw [toInt64_of_nonneg_lt _ (by omega) (by omega)]
    omega
  have e2 : toInt64 ((o : Int) + fragment_size) = ((o + 1000000000 : Nat) : Int) := by
    simp only [fragment_size]
    rw [toInt64_of_nonneg_lt _ (by omega) (by omega)]
    omega
  rw [e1, e2]
  simp only [fragment_size]

theorem recv_loop_step_some (r o : Nat) (st st1 : RecvState) (hr : 1000000000 ≤ r)
    (hb : o + r < 9223372036854775808)
    (h : MPI_Recv_bytes (o : Int) (1000000000 : Int) st = some st1) :
    recv_loop (r : Int) (o : Int) st =
      recv_loop ((r - 1000000000 : Nat) : Int) ((o + 1000000000 : Nat) : Int) st1 := by
  rw [recv_loop_step r o st hr hb, h]

theorem recv_loop_last (r o : Nat) (st : RecvState) (hr : r < 1000000000) :
    recv_loop (r : Int) (o : Int) st = MPI_Recv_bytes (o : Int) (r : Int) st := by
  rw [recv_loop]
  have hnot : ¬ ((r : Int) ≥ fragment_size) := by
    simp only [fragment_size]; omega
  rw [if_neg hnot, toInt32_of_nonneg_lt _ (by omega) (by omega)]

/-- The receive loop run against the messages of the send loop: it consumes
them all, issues the same (offset, count) operands and completes the buffer. -/
theorem recv_loop_send_loop (payload : List Byte) (k : Nat) :
    ∀ (r o : Nat) (buf : List Byte) (qrest : List Message) (tr : List (Int × Int)),
    r / 1000000000 = k → o + r = payload.length →
    payload.length < 9223372036854775808 →
    buf.length = payload.length → buf.take o = payload.take o →
    recv_loop (r : Int) (o : Int)
        { buffer := buf,
          queue := (send_loop (r : Int) (o : Int)).map
            (fun f => Message.bytes (slice payload f.1 f.2)) ++ qrest,
          trace := tr } =
      some { buffer := payload, queue := qrest, trace := tr ++ send_loop (r : Int) (o : Int) } := by
  induction k with
  | zero =>
    intro r o buf qrest tr hk hlen hb hbl hpre
    have hr : r < 1000000000 := by omega
    rw [recv_loop_last r o _ hr, send_loop_last r o hr, List.map_cons, List.map_nil,
      List.singleton_append, slice_natCast]
    have hl : ((payload.drop o).take r).length ≤ r := by
      rw [List.length_take]; omega
    rw [MPI_Recv_bytes_ok o r buf _ qrest tr (by omega) hl]
    have e1 : (payload.drop o).take r = payload.drop o := by
      apply List.take_of_length_le
      rw [List.length_drop]; omega
    have e2 : buf.drop (o + (payload.drop o).length) = [] := by
      apply List.drop_of_length_le
      rw [List.length_drop]; omega
    rw [e1, e2, hpre, List.append_nil, List.take_append_drop]
  | succ k ih =>
    intro r o buf qrest tr hk hlen hb hbl hpre
    have hr : 1000000000 ≤ r := by omega
    have e := slice_natCast payload o 1000000000
    have ec : (1000000000 : Int) = ((1000000000 : Nat) : Int) := by norm_num
    have hl : ((payload.drop o).take 1000000000).length = 1000000000 := by
      rw [List.length_take, List.length_drop]; omega
    have hrecv := MPI_Recv_bytes_ok o 1000000000 buf ((payload.drop o).take 1000000000)
      ((send_loop ((r - 1000000000 : Nat) : Int) ((o + 1000000000 : Nat) : Int)).map
        (fun f => Message.bytes (slice payload f.1 f.2)) ++ qrest) tr (by omega) (by omega)
    rw [hl, ← e, ← ec] at hrecv
    rw [send_loop_step r o hr (by omega), List.map_cons, List.cons_append,
      recv_loop_step_some r o _ _ hr (by omega) hrecv]
    have hlen2 : (buf.take o ++ (payload.drop o).take 1000000000 ++
        buf.drop (o + 1000000000)).length = payload.length := by
      simp only [List.length_append, List.length_take, List.length_drop]
      omega
    have hpre2 : (buf.take o ++ (payload.drop o).take 1000000000 ++
        buf.drop (o + 1000000000)).take (o + 1000000000) = payload.take (o + 1000000000) := by
      have hl2 : (buf.take o ++ (payload.drop o).take 1000000000).length = o + 1000000000 := by
        simp only [List.length_append, List.length_take, List.length_drop]
        omega
      rw [List.take_append_of_le_length (by omega), List.take_of_length_le (by omega), hpre,
        List.take_add]
    have h3 := ih (r - 1000000000) (o + 1000000000)
      (buf.take o ++ (payload.drop o).take 1000000000 ++ buf.drop (o + 1000000000))
      qrest (tr ++ [((o : Int), ((1000000000 : Nat) : Int))])
      (by omega) (by omega) hb hlen2 hpre2
    rw [← ec] at h3 e
    rw [e, h3, List.append_assoc, List.singleton_append]

theorem recv_cons_int64 (size : Int) (q : List Message) :
    recv (Message.int64 size :: q) =
      if size < 0 then none
      else recv_loop size 0 { buffer := List.replicate size.toNat 0, queue := q, trace := [] } :=
  rfl

theorem recv_send (payload : List Byte) (h : payload.length < 9223372036854775808) :
    recv (send payload) =
      some { buffer := payload, queue := [], trace := send_loop (payload.length : Int) 0 } := by
  rw [send_eq, toInt64_of_nonneg_lt _ (by omega) (by omega), recv_cons_int64,
    if_neg (by omega), Int.toNat_ofNat]
  have h1 := recv_loop_send_loop payload (payload.length / 1000000000) payload.length 0
    (List.replicate payload.length 0) [] [] rfl (by omega) h (by simp) (by simp)
  rw [List.append_nil, List.nil_append, Nat.cast_zero] at h1
  exact h1

theorem recv_unfragmented_send_unfragmented (payload : List Byte) :
    recv_unfragmented (send_unfragmented payload) =
      some { buffer := payload, queue := [], trace := [(0, (payload.length : Int))] } := by
  have h0 : recv_unfragmented (send_unfragmented payload) =
      if (payload.length : Int) < 0 then none
      else MPI_Recv_bytes 0 (payload.length : Int)
        { buffer := List.replicate (payload.length : Int).toNat 0,
          queue := [Message.bytes payload], trace := [] } := rfl
  rw [h0, if_neg (by omega), Int.toNat_ofNat]
  have h1 := MPI_Recv_bytes_ok 0 payload.length (List.replicate payload.length 0) payload [] []
    (by simp) (le_refl _)
  rw [Nat.cast_zero] at h1
  rw [h1]
  simp

/-- C7: over a loopback transport that delivers in order, `Comms::recv` run on
the messages of `Comms::send` issues the same (offset, count) sequence that
`send` issued, consumes every message and reassembles a buffer equal to the
payload, which is also what one unfragmented transfer delivers; for a payload of
2 x 1,000,000,000 + 37 bytes the sequence is (0, 10^9), (10^9, 10^9),
(2 x 10^9, 37). -/
theorem recv_reassembles_sent_payload (payload : List Byte)
    (h : payload.length < 9223372036854775808) :
    send payload =
      Message.int64 payload.length ::
        (send_loop (payload.length : Int) 0).map
          (fun f => Message.bytes (slice payload f.1 f.2)) ∧
    recv (send payload) =
      some { buffer := payload, queue := [], trace := send_loop (payload.length : Int) 0 } ∧
    (recv (send payload)).map RecvState.buffer =
      (recv_unfragmented (send_unfragmented payload)).map RecvState.buffer ∧
    (recv_unfragmented (send_unfragmented payload)).map RecvState.buffer = some payload ∧
    (payload.length = 2000000037 →
      send_loop (payload.length : Int) 0 =
        [(0, 1000000000), (1000000000, 1000000000), (2000000000, 37)]) := by
  refine ⟨?_, recv_send payload h, ?_, ?_, ?_⟩
  · rw [send_eq, toInt64_of_nonneg_lt _ (by omega) (by omega)]
  · rw [recv_send payload h, recv_unfragmented_send_unfragmented]
    rfl
  · rw [recv_unfragmented_send_unfragmented]
    rfl
  · intro hlen
    have hc := send_loop_closed 2 payload.length 0 (by omega) (by omega)
    rw [Nat.cast_zero] at hc
    rw [hc, hlen]
    simp [List.range_succ]

/-- C7 witness: a payload of three bytes, and the fragment sequence of a
payload of 2 x 1,000,000,000 + 37 zero bytes. -/
theorem recv_reassembles_sent_payload_witness :
    (recv (send [10, 20, 30])).map RecvState.buffer = some [10, 20, 30] ∧
    send_loop ((List.replicate 2000000037 (0 : Byte)).length : Int) 0 =
      [(0, 1000000000), (1000000000, 1000000000), (2000000000, 37)] :=
  ⟨((recv_reassembles_sent_payload [10, 20, 30] (by decide)).2.2.1).trans
      (recv_reassembles_sent_payload [10, 20, 30] (by decide)).2.2.2.1,
   (recv_reassembles_sent_payload (List.replicate 2000000037 (0 : Byte))
      (by rw [List.length_replicate]; decide)).2.2.2.2 (List.length_replicate _ _)⟩

theorem send_loop_length (n : Nat) (h : n < 9223372036854775808) :
    (send_loop (n : Int) 0).length = n / 1000000000 + 1 := by
  have hc := send_loop_closed (n / 1000000000) n 0 rfl (by omega)
  rw [Nat.cast_zero] at hc
  rw [hc, List.length_append, List.length_map, List.length_range, List.length_singleton]

theorem send_tail_length (buffer : List Byte) (h : buffer.length < 9223372036854775808) :
    (send buffer).tail.length = buffer.length / 1000000000 + 1 := by
  rw [send_eq, List.tail_cons, toInt64_of_nonneg_lt _ (by omega) (by omega), List.length_map,
    send_loop_length _ h]

theorem recv_send_trace_length (buffer : List Byte)
    (h : buffer.length < 9223372036854775808) :
    (recv (send buffer)).map (fun st => st.trace.length) =
      some (buffer.length / 1000000000 + 1) := by
  rw [recv_send buffer h, Option.map_some', send_loop_length _ h]

/-- C8 (as stated, refuted): a payload of exactly 1,000,000,000 bytes is at most
the threshold, yet `send` issues two payload transmissions after the length
prefix, with operands (0, 10^9) and (10^9, 0), and `recv` issues two payload
receives. -/
theorem send_two_transmissions_at_threshold :
    (List.replicate 1000000000 (0 : Byte)).length ≤ 1000000000 ∧
    (send (List.replicate 1000000000 (0 : Byte))).tail.length = 2 ∧
    send_loop ((List.replicate 1000000000 (0 : Byte)).length : Int) 0 =
      [(0, 1000000000), (1000000000, 0)] ∧
    (recv (send (List.replicate 1000000000 (0 : Byte)))).map (fun st => st.trace.length) =
      some 2 := by
  have hl : (List.replicate 1000000000 (0 : Byte)).length = 1000000000 :=
    List.length_replicate _ _
  have hb : (List.replicate 1000000000 (0 : Byte)).length < 9223372036854775808 := by
    rw [hl]; decide
  refine ⟨by rw [hl], ?_, ?_, ?_⟩
  · rw [send_tail_length _ hb, hl]
  · have hc := send_loop_closed 1 1000000000 0 (by decide) (by decide)
    rw [Nat.cast_zero] at hc
    rw [hl, hc]
    decide
  · rw [recv_send_trace_length _ hb, hl]

/-- C8 (amended): after the length prefix `send` issues exactly one payload
transmission iff the payload has fewer than 1,000,000,000 bytes, and then that
transmission is the whole payload; likewise `recv` issues exactly one payload
receive iff the length is below 1,000,000,000. -/
theorem send_single_transmission_iff (buffer : List Byte)
    (h : buffer.length < 9223372036854775808) :
    ((send buffer).tail.length = 1 ↔ buffer.length < 1000000000) ∧
    ((recv (send buffer)).map (fun st => st.trace.length) = some 1 ↔
      buffer.length < 1000000000) ∧
    (buffer.length < 1000000000 →
      send buffer = [Message.int64 buffer.length, Message.bytes buffer] ∧
      recv (send buffer) =
        some { buffer := buffer, queue := [], trace := [(0, (buffer.length : Int))] }) := by
  refine ⟨?_, ?_, ?_⟩
  · rw [send_tail_length buffer h]
    omega
  · rw [recv_send_trace_length buffer h, Option.some.injEq]
    omega
  · intro hlt
    have hl := send_loop_last buffer.length 0 hlt
    rw [Nat.cast_zero] at hl
    constructor
    · rw [send_eq, toInt64_of_nonneg_lt _ (by omega) (by omega), hl, List.map_cons,
        List.map_nil]
      have e := slice_natCast buffer 0 buffer.length
      rw [Nat.cast_zero, List.drop_zero, List.take_length] at e
      rw [e]
    · rw [recv_send buffer h, hl]

/-- C8 witness: a payload of three bytes goes out as one payload transmission. -/
theorem send_single_transmission_iff_witness :
    send [10, 20, 30] = [Message.int64 3, Message.bytes [10, 20, 30]] ∧
    recv (send [10, 20, 30]) =
      some { buffer := [10, 20, 30], queue := [], trace := [(0, 3)] } :=
  (send_single_transmission_iff [10, 20, 30] (by decide)).2.2 (by decide)

/-! ## Theorems: all_gather and broadcast -/

theorem sum_take_succ (l : List Int) (j : Nat) :
    (l.take (j + 1)).sum = (l.take j).sum + l.getD j 0 := by
  induction l generalizing j with
  | nil => simp
  | cons a l ih =>
    cases j with
    | zero => simp
    | succ j =>
      rw [List.take_succ_cons, List.sum_cons, ih j, List.take_succ_cons, List.sum_cons,
        List.getD_cons_succ]
      ring

theorem sum_take_le_sum_take (l : List Int) (hnn : ∀ x ∈ l, 0 ≤ x) (a b : Nat) (hab : a ≤ b) :
    (l.take a).sum ≤ (l.take b).sum := by
  obtain ⟨d, rfl⟩ := Nat.exists_eq_add_of_le hab
  rw [List.take_add, List.sum_append]
  have h0 : 0 ≤ ((l.drop a).take d).sum := by
    apply List.sum_nonneg
    intro x hx
    exact hnn x (List.mem_of_mem_drop (List.mem_of_mem_take hx))
  omega

theorem sum_take_le_sum (l : List Int) (hnn : ∀ x ∈ l, 0 ≤ x) (a : Nat) :
    0 ≤ (l.take a).sum ∧ (l.take a).sum ≤ l.sum := by
  constructor
  · apply List.sum_nonneg
    intro x hx
    exact hnn x (List.mem_of_mem_take hx)
  · have h := sum_take_le_sum_take l hnn a (max a l.length) (le_max_left _ _)
    rw [List.take_of_length_le (le_max_right _ _)] at h
    exact h

theorem getD_set_int (l : List Int) (m j : Nat) (v : Int) (hm : m < l.length) :
    (l.set m v).getD j 0 = if j = m then v else l.getD j 0 := by
  simp only [List.getD_eq_getElem?_getD, List.getElem?_set]
  by_cases h : m = j
  · subst h; simp [hm]
  · have h2 : ¬ j = m := fun e => h e.symm
    simp [h, h2]

/-- Invariant of the first loop of `all_gather` after `m` iterations, when no
`int` sum overflows. -/
theorem all_gather_loop_inv (world : Nat) (allSizes : List Int)
    (hnn : ∀ x ∈ allSizes, 0 ≤ x) (hsum : allSizes.sum ≤ 2147483647) (m : Nat)
    (hm : m ≤ world) :
    ((List.range m).foldl (all_gather_step allSizes) (0, List.replicate world 0)).1 =
      (allSizes.take m).sum ∧
    ((List.range m).foldl (all_gather_step allSizes) (0, List.replicate world 0)).2.length =
      world ∧
    ∀ j, j < world →
      ((List.range m).foldl (all_gather_step allSizes) (0, List.replicate world 0)).2.getD j 0 =
        if j < m then (allSizes.take j).sum else 0 := by
  induction m with
  | zero =>
    refine ⟨by simp, by simp, ?_⟩
    intro j hj
    simp [List.getD_eq_getElem?_getD, hj]
  | succ m ih =>
    obtain ⟨h1, h2, h3⟩ := ih (by omega)
    rw [List.range_succ, List.foldl_append, List.foldl_cons, List.foldl_nil]
    generalize (List.range m).foldl (all_gather_step allSizes) (0, List.replicate world 0) = st
      at h1 h2 h3
    have hb := sum_take_le_sum allSizes hnn (m + 1)
    have hb0 := sum_take_le_sum allSizes hnn m
    refine ⟨?_, ?_, ?_⟩
    · simp only [all_gather_step]
      rw [h1, ← sum_take_succ, toInt32_of_nonneg_lt _ hb.1 (by omega)]
    · simp only [all_gather_step]
      split
      · rw [List.length_set]; exact h2
      · exact h2
    · intro j hj
      simp only [all_gather_step]
      by_cases hm0 : m > 0
      · have hlt1 : m - 1 < m := by omega
        rw [if_pos hm0, getD_set_int st.2 m j _ (by omega), h3 (m - 1) (by omega),
          if_pos hlt1, ← sum_take_succ, Nat.sub_add_cancel hm0,
          toInt32_of_nonneg_lt _ hb0.1 (by omega)]
        by_cases hjm : j = m
        · subst hjm; simp
        · rw [if_neg hjm, h3 j hj]
          by_cases hlt : j < m
          · rw [if_pos hlt, if_pos (by omega)]
          · rw [if_neg hlt, if_neg (by omega)]
      · have hm1 : m = 0 := by omega
        subst hm1
        rw [if_neg hm0, h3 j hj]
        by_cases hj0 : j = 0
        · subst hj0; simp
        · rw [if_neg (by omega), if_neg (by omega)]

theorem all_gather_offsets_spec (world : Nat) (allSizes : List Int)
    (hnn : ∀ x ∈ allSizes, 0 ≤ x) (hsum : allSizes.sum ≤ 2147483647) :
    (all_gather_offsets world allSizes).1 = (allSizes.take world).sum ∧
    (all_gather_offsets world allSizes).2.length = world ∧
    ∀ j, j < world →
      (all_gather_offsets world allSizes).2.getD j 0 = (allSizes.take j).sum := by
  obtain ⟨h1, h2, h3⟩ := all_gather_loop_inv world allSizes hnn hsum world (le_refl _)
  refine ⟨h1, h2, ?_⟩
  intro j hj
  have := h3 j hj
  rw [if_pos hj] at this
  exact this

/-- C9 (as stated, refuted): two participants publishing the lengths
2147483647 and 1. The lengths sum to 2147483648, which `int totalBuf` cannot
hold: the `int` sum of the loop is -2147483648, so `totalBuf` is not the sum of
the lengths. -/
theorem all_gather_totalBuf_overflow :
    all_gather_sizes [2147483647, 1] = [2147483647, 1] ∧
    ([2147483647, 1] : List Int).sum = 2147483648 ∧
    (all_gather_offsets 2 [2147483647, 1]).1 = -2147483648 ∧
    (all_gather_offsets 2 [2147483647, 1]).1 ≠ ([2147483647, 1] : List Int).sum := by
  decide

/-- C9 (amended): for `world >= 1` participants and `world` published lengths,
each non-negative, whose total fits an `int` (at most 2147483647): `displ` has
`world` entries, `displ[0] = 0`, `displ[i]` is the sum of the lengths before
`i`, `totalBuf` is the sum of all lengths; each segment ends where the next
begins and the last ends at `totalBuf`, so the segments are pairwise disjoint,
in participant order, and cover the buffer; `out_data` has `world` entries,
entry `i` deserialized from segment `i`. -/
theorem all_gather_displacements_prefix_sums (world : Nat) (allSizes : List Int)
    (hw : 1 ≤ world) (hlen : allSizes.length = world)
    (hnn : ∀ x ∈ allSizes, 0 ≤ x) (hsum : allSizes.sum ≤ 2147483647) :
    (all_gather_offsets world allSizes).2.length = world ∧
    (all_gather_offsets world allSizes).2.getD 0 0 = 0 ∧
    (∀ i, i < world →
      (all_gather_offsets world allSizes).2.getD i 0 = (allSizes.take i).sum) ∧
    (all_gather_offsets world allSizes).1 = allSizes.sum ∧
    (∀ i, i + 1 < world →
      (all_gather_offsets world allSizes).2.getD i 0 + allSizes.getD i 0 =
        (all_gather_offsets world allSizes).2.getD (i + 1) 0) ∧
    (all_gather_offsets world allSizes).2.getD (world - 1) 0 + allSizes.getD (world - 1) 0 =
      (all_gather_offsets world allSizes).1 ∧
    (∀ i j, i < j → j < world →
      (all_gather_offsets world allSizes).2.getD i 0 + allSizes.getD i 0 ≤
        (all_gather_offsets world allSizes).2.getD j 0) ∧
    (∀ i, i < world →
      0 ≤ (all_gather_offsets world allSizes).2.getD i 0 ∧
      (all_gather_offsets world allSizes).2.getD i 0 + allSizes.getD i 0 ≤
        (all_gather_offsets world allSizes).1) ∧
    (∀ (D : Type) (deserialize : List Byte → D) (bigBuff : List Byte),
      (all_gather_out deserialize world allSizes bigBuff).length = world ∧
      ∀ i, i < world →
        (all_gather_out deserialize world allSizes bigBuff)[i]? =
          some (deserialize
            ((bigBuff.drop ((allSizes.take i).sum).toNat).take (allSizes.getD i 0).toNat))) := by
  obtain ⟨h1, h2, h3⟩ := all_gather_offsets_spec world allSizes hnn hsum
  have htot : (all_gather_offsets world allSizes).1 = allSizes.sum := by
    rw [h1, List.take_of_length_le (by omega)]
  refine ⟨h2, ?_, h3, htot, ?_, ?_, ?_, ?_, ?_⟩
  · rw [h3 0 (by omega)]; simp
  · intro i hi
    rw [h3 i (by omega), h3 (i + 1) hi, sum_take_succ]
  · rw [h3 (world - 1) (by omega), htot, ← sum_take_succ, Nat.sub_add_cancel hw,
      List.take_of_length_le (by omega)]
  · intro i j hij hj
    rw [h3 i (by omega), h3 j hj, ← sum_take_succ]
    exact sum_take_le_sum_take allSizes hnn (i + 1) j hij
  · intro i hi
    rw [h3 i hi, htot, ← sum_take_succ]
    exact ⟨(sum_take_le_sum allSizes hnn i).1, (sum_take_le_sum allSizes hnn (i + 1)).2⟩
  · intro D deserialize bigBuff
    constructor
    · simp [all_gather_out]
    · intro i hi
      simp only [all_gather_out, List.getElem?_map, List.getElem?_range hi, Option.map_some',
        h3 i hi, slice]

/-- C9 witness: three participants publishing the lengths 5, 7 and 2. -/
theorem all_gather_displacements_prefix_sums_witness :
    (all_gather_offsets 3 [5, 7, 2]).2.length = 3 ∧
    (all_gather_offsets 3 [5, 7, 2]).2.getD 0 0 = 0 ∧
    (all_gather_offsets 3 [5, 7, 2]).1 = ([5, 7, 2] : List Int).sum :=
  ⟨(all_gather_displacements_prefix_sums 3 [5, 7, 2] (by decide) rfl (by decide)
      (by decide)).1,
   (all_gather_displacements_prefix_sums 3 [5, 7, 2] (by decide) rfl (by decide)
      (by decide)).2.1,
   (all_gather_displacements_prefix_sums 3 [5, 7, 2] (by decide) rfl (by decide)
      (by decide)).2.2.2.1⟩

theorem broadcast_root_eq (buffer : List Byte) :
    broadcast_root buffer =
      (toInt32 buffer.length,
       if 0 ≤ toInt32 buffer.length then some (buffer.take (toInt32 buffer.length).toNat)
       else none) := rfl

theorem broadcast_nonroot_eq (size : Int) (data : Option (List Byte)) :
    broadcast_nonroot (size, data) =
      if size < 0 then none
      else
        match data with
        | none => none
        | some payload => if (payload.length : Int) = size then some payload else none := rfl

/-- Below `2^31` bytes `Comms::broadcast` announces the payload length and every
non-root participant receives exactly the payload. -/
theorem broadcast_below_int_max (buffer : List Byte) (h : buffer.length < 2147483648) :
    broadcast_root buffer = ((buffer.length : Int), some buffer) ∧
    broadcast_nonroot (broadcast_root buffer) = some buffer := by
  have e : broadcast_root buffer = ((buffer.length : Int), some buffer) := by
    rw [broadcast_root_eq, toInt32_of_nonneg_lt _ (by omega) (by omega), if_pos (by omega),
      Int.toNat_ofNat, List.take_length]
  refine ⟨e, ?_⟩
  rw [e, broadcast_nonroot_eq, if_neg (by omega)]
  simp

/-- C10 (the code at the failing inputs): for a payload of `2^31` bytes the root
announces -2147483648, not the payload length, its payload broadcast has a
negative count, and a non-root participant cannot allocate or receive; for a
payload of `2^32 + 5` bytes the root announces 5 and broadcasts 5 bytes. -/
theorem broadcast_length_truncated_to_int :
    (List.replicate 2147483648 (0 : Byte)).length = 2147483648 ∧
    (broadcast_root (List.replicate 2147483648 (0 : Byte))).1 = -2147483648 ∧
    (broadcast_root (List.replicate 2147483648 (0 : Byte))).2 = none ∧
    broadcast_nonroot (broadcast_root (List.replicate 2147483648 (0 : Byte))) = none ∧
    (List.replicate 4294967301 (0 : Byte)).length = 4294967301 ∧
    (broadcast_root (List.replicate 4294967301 (0 : Byte))).1 = 5 := by
  have e1 : toInt32 ((2147483648 : Nat) : Int) = -2147483648 := by decide
  have e2 : toInt32 ((4294967301 : Nat) : Int) = 5 := by decide
  have hn : ¬ ((0 : Int) ≤ -2147483648) := by decide
  refine ⟨List.length_replicate _ _, ?_, ?_, ?_, List.length_replicate _ _, ?_⟩
  · rw [broadcast_root_eq, List.length_replicate, e1]
  · rw [broadcast_root_eq, List.length_replicate, e1, if_neg hn]
  · rw [broadcast_root_eq, List.length_replicate, e1, if_neg hn, broadcast_nonroot_eq,
      if_pos (by decide)]
  · rw [broadcast_root_eq, List.length_replicate, e2]

/-! ## Theorems: the six comparison operators -/

theorem RankInfo.le_iff (a b : RankInfo) :
    a.le b = true ↔ a.rank < b.rank ∨ (a.rank = b.rank ∧ a.thread ≤ b.thread) := by
  unfold RankInfo.le
  by_cases h : a.rank = b.rank
  · simp [h]
  · simp [h]; omega

theorem RankInfo.ge_iff (a b : RankInfo) :
    a.ge b = true ↔ a.rank > b.rank ∨ (a.rank = b.rank ∧ a.thread ≥ b.thread) := by
  unfold RankInfo.ge
  by_cases h : a.rank = b.rank
  · simp [h]
  · simp [h]; omega

theorem RankInfo.eq_iff_fields (a b : RankInfo) :
    a.eq b = true ↔ a.rank = b.rank ∧ a.thread = b.thread := by
  simp [RankInfo.eq]

/-- C17: the six comparison operators of `RankInfo` agree with one another:
`a != b` iff not `a == b`; `a > b` iff `b < a`; `a <= b` iff (`a < b` or
`a == b`) iff not `b < a`; `a >= b` iff `b <= a` iff not `a < b`; `a == b` iff
neither `a < b` nor `b < a`. -/
theorem RankInfo.comparison_operators_consistent (a b : RankInfo) :
    (a.ne b = true ↔ ¬ a.eq b = true) ∧
    (a.gt b = true ↔ b.lt a = true) ∧
    (a.le b = true ↔ (a.lt b = true ∨ a.eq b = true)) ∧
    (a.le b = true ↔ ¬ b.lt a = true) ∧
    (a.ge b = true ↔ b.le a = true) ∧
    (a.ge b = true ↔ ¬ a.lt b = true) ∧
    (a.eq b = true ↔ (¬ a.lt b = true ∧ ¬ b.lt a = true)) := by
  have hlt := RankInfo.lt_iff a b
  have hlt2 := RankInfo.lt_iff b a
  have hgt := RankInfo.gt_iff a b
  have hle := RankInfo.le_iff a b
  have hle2 := RankInfo.le_iff b a
  have hge := RankInfo.ge_iff a b
  have heq := RankInfo.eq_iff_fields a b
  refine ⟨?_, ?_, ?_, ?_, ?_, ?_, ?_⟩
  · simp [RankInfo.ne]
  · rw [hgt, hlt2]; omega
  · rw [hle, hlt, heq]; omega
  · rw [hle, hlt2]; omega
  · rw [hge, hle2]; omega
  · rw [hge, hlt]; omega
  · rw [heq, hlt, hlt2]; omega

/-! ## Theorems: calculateShmemSize -/

theorem toSizeT_of_lt (n : Nat) (h : n < 18446744073709551616) : toSizeT n = n :=
  Nat.mod_eq_of_lt h

theorem lt_succ_div_mul (a P : Nat) (hP : 0 < P) : a < (1 + a / P) * P := by
  have h := Nat.lt_mul_div_succ a hP
  have e : P * (a / P + 1) = (1 + a / P) * P := by ring
  rw [e] at h
  exact h

/-- When the exact size fits `size_t`, no step of `calculateShmemSize` wraps. -/
theorem calculateShmemSize_eq_exact (z : ShmemSizes) (numBuffers bufferSize : Nat)
    (hP : 0 < z.page_size)
    (hfit : shmemSizeExact z numBuffers bufferSize < 18446744073709551616) :
    calculateShmemSize z numBuffers bufferSize = shmemSizeExact z numBuffers bufferSize ∧
    calculateShmemSize.shdata z = 1 + (z.sizeofShare + z.sizeofISD) / z.page_size ∧
    (1 ≤ numBuffers →
      calculateShmemSize.buffer z bufferSize =
        1 + (z.sizeofCircBuff + bufferSize * z.sizeofMsg) / z.page_size) := by
  obtain ⟨P, C, M, S, H⟩ := z
  simp only [shmemSizeExact, calculateShmemSize, calculateShmemSize.shdata,
    calculateShmemSize.buffer] at *
  generalize hx : C + bufferSize * M = x at *
  generalize hy : S + H = y at *
  have hyP : y < (1 + y / P) * P := lt_succ_div_mul y P hP
  have hxP : x < (1 + x / P) * P := lt_succ_div_mul x P hP
  have hE : (2 + (1 + y / P) + numBuffers * (1 + x / P)) * P =
      2 * P + (1 + y / P) * P + numBuffers * ((1 + x / P) * P) := by ring
  have h1 := Nat.le_mul_of_pos_right (2 + (1 + y / P) + numBuffers * (1 + x / P)) hP
  have e1 : toSizeT y = y := toSizeT_of_lt y (by omega)
  have e2 : toSizeT (1 + y / P) = 1 + y / P := toSizeT_of_lt _ (by omega)
  have e3 : toSizeT (2 + (1 + y / P)) = 2 + (1 + y / P) := toSizeT_of_lt _ (by omega)
  rw [e1, e2, e3]
  by_cases hnb : numBuffers = 0
  · subst hnb
    simp only [Nat.zero_mul, Nat.add_zero] at *
    have e4 : toSizeT 0 = 0 := rfl
    rw [e4, Nat.add_zero, e3, toSizeT_of_lt _ hfit]
    exact ⟨rfl, trivial, fun h => absurd h (by omega)⟩
  · have hnb1 : 0 < numBuffers := Nat.pos_of_ne_zero hnb
    have h2 := Nat.le_mul_of_pos_left ((1 + x / P) * P) hnb1
    have h3 := Nat.le_mul_of_pos_left (1 + x / P) hnb1
    have hbm : bufferSize * M ≤ x := by omega
    have e5 : toSizeT (bufferSize * M) = bufferSize * M := toSizeT_of_lt _ (by omega)
    have e6 : toSizeT x = x := toSizeT_of_lt x (by omega)
    have e7 : toSizeT (1 + x / P) = 1 + x / P := toSizeT_of_lt _ (by omega)
    have e8 : toSizeT (numBuffers * (1 + x / P)) = numBuffers * (1 + x / P) :=
      toSizeT_of_lt _ (by omega)
    have e9 : toSizeT (2 + (1 + y / P) + numBuffers * (1 + x / P)) =
        2 + (1 + y / P) + numBuffers * (1 + x / P) := toSizeT_of_lt _ (by omega)
    rw [e5, hx, e6, e7, e8, e9, toSizeT_of_lt _ hfit]
    exact ⟨rfl, rfl, fun _ => rfl⟩

/-- C11 (as stated, refuted): with 4096-byte pages, a 64-byte queue header,
2-byte messages and one queue of `2^63` slots, `bufferSize * sizeof(MsgType)`
wraps to 0 in `size_t`: the function returns 16384, which is neither the value
of the formula nor at least the space the layout asks for. -/
theorem calculateShmemSize_wraps_size_t :
    calculateShmemSize ⟨4096, 64, 2, 8, 8⟩ 1 9223372036854775808 = 16384 ∧
    shmemSizeExact ⟨4096, 64, 2, 8, 8⟩ 1 9223372036854775808 = 18446744073709568000 ∧
    calculateShmemSize ⟨4096, 64, 2, 8, 8⟩ 1 9223372036854775808 <
      8 + 8 + 1 * (64 + 9223372036854775808 * 2) + 2 * 4096 := by
  decide

/-- C11 (amended): for a page size `P > 0`, whenever the value of the formula
fits `size_t`, `calculateShmemSize` returns
`(2 + (1 + (S + H) / P) + numBuffers * (1 + (C + bufferSize * M) / P)) * P`; the
result is a multiple of `P`; with at least one queue the pages reserved per
queue, `buffer * P`, exceed `C + bufferSize * M`; and the total is at least
`H + S + numBuffers * (C + bufferSize * M) + 2 * P`. -/
theorem calculateShmemSize_formula_when_fits (z : ShmemSizes) (numBuffers bufferSize : Nat)
    (hP : 0 < z.page_size)
    (hfit : shmemSizeExact z numBuffers bufferSize < 18446744073709551616) :
    calculateShmemSize z numBuffers bufferSize =
      (2 + (1 + (z.sizeofShare + z.sizeofISD) / z.page_size) +
        numBuffers * (1 + (z.sizeofCircBuff + bufferSize * z.sizeofMsg) / z.page_size)) *
        z.page_size ∧
    z.page_size ∣ calculateShmemSize z numBuffers bufferSize ∧
    (1 ≤ numBuffers →
      calculateShmemSize.buffer z bufferSize =
        1 + (z.sizeofCircBuff + bufferSize * z.sizeofMsg) / z.page_size ∧
      calculateShmemSize.buffer z bufferSize * z.page_size >
        z.sizeofCircBuff + bufferSize * z.sizeofMsg) ∧
    calculateShmemSize z numBuffers bufferSize ≥
      z.sizeofISD + z.sizeofShare +
        numBuffers * (z.sizeofCircBuff + bufferSize * z.sizeofMsg) + 2 * z.page_size := by
  obtain ⟨h1, _, h3⟩ := calculateShmemSize_eq_exact z numBuffers bufferSize hP hfit
  have hxP : z.sizeofCircBuff + bufferSize * z.sizeofMsg <
      (1 + (z.sizeofCircBuff + bufferSize * z.sizeofMsg) / z.page_size) * z.page_size :=
    lt_succ_div_mul _ _ hP
  have hyP : z.sizeofShare + z.sizeofISD <
      (1 + (z.sizeofShare + z.sizeofISD) / z.page_size) * z.page_size :=
    lt_succ_div_mul _ _ hP
  refine ⟨h1, ?_, ?_, ?_⟩
  · rw [h1]
    exact Dvd.intro_left _ rfl
  · intro hnb
    rw [h3 hnb]
    exact ⟨rfl, hxP⟩
  · rw [h1]
    simp only [shmemSizeExact]
    have hE : (2 + (1 + (z.sizeofShare + z.sizeofISD) / z.page_size) +
        numBuffers * (1 + (z.sizeofCircBuff + bufferSize * z.sizeofMsg) / z.page_size)) *
          z.page_size =
        2 * z.page_size + (1 + (z.sizeofShare + z.sizeofISD) / z.page_size) * z.page_size +
          numBuffers *
            ((1 + (z.sizeofCircBuff + bufferSize * z.sizeofMsg) / z.page_size) *
              z.page_size) := by ring
    have hmul := Nat.mul_le_mul_left numBuffers (Nat.le_of_lt hxP)
    rw [hE]
    omega

/-- C11 witness: 4096-byte pages, three queues of 1000 two-byte messages. -/
theorem calculateShmemSize_formula_when_fits_witness :
    calculateShmemSize ⟨4096, 64, 2, 8, 8⟩ 3 1000 =
      (2 + (1 + (8 + 8) / 4096) + 3 * (1 + (64 + 1000 * 2) / 4096)) * 4096 ∧
    4096 ∣ calculateShmemSize ⟨4096, 64, 2, 8, 8⟩ 3 1000 ∧
    calculateShmemSize.buffer ⟨4096, 64, 2, 8, 8⟩ 1000 * 4096 > 64 + 1000 * 2 :=
  ⟨(calculateShmemSize_formula_when_fits ⟨4096, 64, 2, 8, 8⟩ 3 1000 (by decide)
      (by decide)).1,
   (calculateShmemSize_formula_when_fits ⟨4096, 64, 2, 8, 8⟩ 3 1000 (by decide)
      (by decide)).2.1,
   ((calculateShmemSize_formula_when_fits ⟨4096, 64, 2, 8, 8⟩ 3 1000 (by decide)
      (by decide)).2.2.1 (by decide)).2⟩

/-! ## Theorems: SimpleMem::Request -/

theorem SimpleMem.construct_id (a : SimpleMem.CtorArgs) (m : Nat) :
    (SimpleMem.construct a m).1.id = m ∧
    (SimpleMem.construct a m).2 = (m + 1) % 18446744073709551616 := by
  cases a <;> exact ⟨rfl, rfl⟩

theorem SimpleMem.construct_fields (a : SimpleMem.CtorArgs) (m : Nat) :
    (SimpleMem.construct a m).1.cmd = a.cmd ∧
    (SimpleMem.construct a m).1.addr = a.addr ∧
    (SimpleMem.construct a m).1.size = a.size ∧
    (SimpleMem.construct a m).1.flags = a.flags ∧
    (SimpleMem.construct a m).1.memFlags = a.memFlags ∧
    (SimpleMem.construct a m).1.groupId = 0 ∧
    (SimpleMem.construct a m).1.instrPtr = 0 ∧
    (SimpleMem.construct a m).1.virtualAddr = 0 := by
  cases a <;> exact ⟨rfl, rfl, rfl, rfl, rfl, rfl, rfl, rfl⟩

theorem SimpleMem.constructAll_cons (a : SimpleMem.CtorArgs) (rest : List SimpleMem.CtorArgs)
    (m : Nat) :
    SimpleMem.constructAll (a :: rest) m =
      ((SimpleMem.construct a m).1 ::
        (SimpleMem.constructAll rest (SimpleMem.construct a m).2).1,
       (SimpleMem.constructAll rest (SimpleMem.construct a m).2).2) := rfl

/-- The ids handed out from counter value `c0` are `c0, c0 + 1, ...` as long as
the counter does not pass `2^64`. -/
theorem SimpleMem.constructAll_ids (args : List SimpleMem.CtorArgs) :
    ∀ c0 : Nat, c0 + args.length ≤ 18446744073709551616 →
    (SimpleMem.constructAll args c0).1.map SimpleMem.Request.id =
      List.range' c0 args.length := by
  induction args with
  | nil => intro c0 _; rfl
  | cons a rest ih =>
    intro c0 h
    rw [SimpleMem.constructAll_cons, List.map_cons, (SimpleMem.construct_id a c0).1,
      (SimpleMem.construct_id a c0).2, List.length_cons, List.range'_succ]
    cases rest with
    | nil => rfl
    | cons b rest2 =>
      have hlt : c0 + 1 < 18446744073709551616 := by
        simp only [List.length_cons] at h
        omega
      rw [Nat.mod_eq_of_lt hlt, ih (c0 + 1) (by simp only [List.length_cons] at h ⊢; omega)]

theorem SimpleMem.constructAll_fields (args : List SimpleMem.CtorArgs) :
    ∀ c0 : Nat,
    (SimpleMem.constructAll args c0).1.map
        (fun r => (r.cmd, r.addr, r.size, r.flags, r.memFlags, r.groupId, r.instrPtr,
          r.virtualAddr)) =
      args.map (fun a => (a.cmd, a.addr, a.size, a.flags, a.memFlags, 0, 0, 0)) := by
  induction args with
  | nil => intro c0; rfl
  | cons a rest ih =>
    intro c0
    obtain ⟨h1, h2, h3, h4, h5, h6, h7, h8⟩ := SimpleMem.construct_fields a c0
    rw [SimpleMem.constructAll_cons, List.map_cons, List.map_cons, ih]
    simp only [h1, h2, h3, h4, h5, h6, h7, h8]

/-- C14: each constructor of `SimpleMem::Request` sets `id` to the current value
of `main_id` and increments the counter; over a sequence of fewer than `2^64`
constructions from the start of the program the ids are `0, 1, 2, ...`, hence
strictly increasing in construction order and pairwise distinct; every request
has `groupId`, `instrPtr`, `virtualAddr` equal to 0 and `cmd`, `addr`, `size`,
`flags`, `memFlags` equal to its arguments. -/
theorem SimpleMem.request_ids_unique_increasing (args : List SimpleMem.CtorArgs)
    (h : args.length < 18446744073709551616) :
    (∀ (a : SimpleMem.CtorArgs) (m : Nat),
      (SimpleMem.construct a m).1.id = m ∧
      (SimpleMem.construct a m).2 = (m + 1) % 18446744073709551616) ∧
    (SimpleMem.constructAll args SimpleMem.main_id_initial).1.length = args.length ∧
    (SimpleMem.constructAll args SimpleMem.main_id_initial).1.map SimpleMem.Request.id =
      List.range args.length ∧
    ((SimpleMem.constructAll args SimpleMem.main_id_initial).1.map
      SimpleMem.Request.id).Pairwise (fun x y => x < y) ∧
    ((SimpleMem.constructAll args SimpleMem.main_id_initial).1.map
      SimpleMem.Request.id).Nodup ∧
    (SimpleMem.constructAll args SimpleMem.main_id_initial).1.map
        (fun r => (r.cmd, r.addr, r.size, r.flags, r.memFlags, r.groupId, r.instrPtr,
          r.virtualAddr)) =
      args.map (fun a => (a.cmd, a.addr, a.size, a.flags, a.memFlags, 0, 0, 0)) := by
  have hids := SimpleMem.constructAll_ids args SimpleMem.main_id_initial
    (by simp only [SimpleMem.main_id_initial]; omega)
  have hr : List.range' SimpleMem.main_id_initial args.length = List.range args.length := by
    rw [List.range_eq_range']; rfl
  rw [hr] at hids
  refine ⟨SimpleMem.construct_id, ?_, hids, ?_, ?_, SimpleMem.constructAll_fields args _⟩
  · have := congrArg List.length hids
    rw [List.length_map, List.length_range] at this
    exact this
  · rw [hids]
    exact List.pairwise_lt_range _
  · rw [hids]
    exact List.nodup_range _

/-- C14 witness: a write with payload, then a read, then a response. -/
theorem SimpleMem.request_ids_unique_increasing_witness :
    (SimpleMem.constructAll
      [SimpleMem.CtorArgs.withData SimpleMem.Command.Write 4096 2 [7, 9] 2 0,
       SimpleMem.CtorArgs.noData SimpleMem.Command.Read 8192 8 0 0,
       SimpleMem.CtorArgs.noData SimpleMem.Command.ReadResp 8192 8 0 4]
      SimpleMem.main_id_initial).1.map SimpleMem.Request.id = List.range 3 :=
  (SimpleMem.request_ids_unique_increasing
    [SimpleMem.CtorArgs.withData SimpleMem.Command.Write 4096 2 [7, 9] 2 0,
     SimpleMem.CtorArgs.noData SimpleMem.Command.Read 8192 8 0 0,
     SimpleMem.CtorArgs.noData SimpleMem.Command.ReadResp 8192 8 0 4]
    (by decide)).2.2.1

/-! ## Theorems: region lifecycle -/

namespace Interprocess

theorem remove_old_present {Share Msg : Type} (os : OS Share Msg) (k : xsi_key)
    (seg : Segment Share Msg) (hk : os k = some seg) (ha : seg.access = Access.readWrite) :
    remove_old_shared_memory os k = Except.ok (true, Function.update os k none) := by
  simp [remove_old_shared_memory, xsi_open, xsi_remove, hk, ha]

theorem remove_old_absent {Share Msg : Type} (os : OS Share Msg) (k : xsi_key)
    (hk : os k = none) :
    remove_old_shared_memory os k = Except.ok (false, os) := by
  simp [remove_old_shared_memory, xsi_open, hk]

theorem remove_old_denied {Share Msg : Type} (os : OS Share Msg) (k : xsi_key)
    (seg : Segment Share Msg) (hk : os k = some seg) (ha : seg.access = Access.denied) :
    remove_old_shared_memory os k = Except.error (Stop.raised error_code.security_error) := by
  simp [remove_old_shared_memory, xsi_open, hk, ha]

/-- On a region that can be opened and cannot be removed, the call reports a
removal and leaves the namespace as it is. -/
theorem remove_old_unremovable {Share Msg : Type} (os : OS Share Msg) (k : xsi_key)
    (seg : Segment Share Msg) (hk : os k = some seg) (ha : seg.access = Access.openOnly) :
    remove_old_shared_memory os k = Except.ok (true, os) := by
  simp [remove_old_shared_memory, xsi_open, xsi_remove, hk, ha]

theorem shutdown_true_eq {Share Msg : Type} (t : IPCTunnel) (fuel : Nat) (os : OS Share Msg) :
    t.shutdown fuel true os = shutdown_loop fuel os t.xkey := by
  simp [IPCTunnel.shutdown]

theorem shutdown_loop_absent {Share Msg : Type} (os : OS Share Msg) (k : xsi_key)
    (hk : os k = none) (fuel : Nat) :
    shutdown_loop (fuel + 1) os k = some (Except.ok os) := by
  simp [shutdown_loop, remove_old_absent os k hk]

theorem shutdown_loop_present {Share Msg : Type} (os : OS Share Msg) (k : xsi_key)
    (seg : Segment Share Msg) (hk : os k = some seg) (ha : seg.access = Access.readWrite)
    (fuel : Nat) :
    shutdown_loop (fuel + 2) os k = some (Except.ok (Function.update os k none)) := by
  rw [shutdown_loop, remove_old_present os k seg hk ha]
  exact shutdown_loop_absent _ k (Function.update_same _ _ _) fuel

theorem shutdown_loop_denied {Share Msg : Type} (os : OS Share Msg) (k : xsi_key)
    (seg : Segment Share Msg) (hk : os k = some seg) (ha : seg.access = Access.denied)
    (fuel : Nat) :
    shutdown_loop (fuel + 1) os k =
      some (Except.error (Stop.raised error_code.security_error)) := by
  simp [shutdown_loop, remove_old_denied os k seg hk ha]

/-- On a region that can be opened and cannot be removed, the loop of
`shutdown(true)` has not ended after any number of calls. -/
theorem shutdown_loop_unremovable {Share Msg : Type} (os : OS Share Msg) (k : xsi_key)
    (seg : Segment Share Msg) (hk : os k = some seg) (ha : seg.access = Access.openOnly)
    (fuel : Nat) :
    shutdown_loop fuel os k = none := by
  induction fuel with
  | zero => rfl
  | succ n ih => rw [shutdown_loop, remove_old_unremovable os k seg hk ha]; exact ih

/-- Where the region under the key is absent or removable, `shutdown(true)`
returns, no region is under the key afterwards, no other key is touched, and a
second `shutdown(true)` returns the same namespace. -/
theorem shutdown_all_removable {Share Msg : Type} (t : IPCTunnel) (os : OS Share Msg)
    (hacc : ∀ seg, os t.xkey = some seg → seg.access = Access.readWrite) (fuel : Nat) :
    t.shutdown (fuel + 2) true os = some (Except.ok (Function.update os t.xkey none)) ∧
    (Function.update os t.xkey none) t.xkey = none ∧
    (∀ k, k ≠ t.xkey → (Function.update os t.xkey none) k = os k) ∧
    t.shutdown (fuel + 2) true (Function.update os t.xkey none) =
      some (Except.ok (Function.update os t.xkey none)) := by
  have h2 : t.shutdown (fuel + 2) true (Function.update os t.xkey none) =
      some (Except.ok (Function.update os t.xkey none)) := by
    rw [shutdown_true_eq]
    exact shutdown_loop_absent _ t.xkey (Function.update_same _ _ _) (fuel + 1)
  refine ⟨?_, Function.update_same _ _ _, fun k hne => Function.update_noteq hne _ _, h2⟩
  rw [shutdown_true_eq]
  rcases Option.eq_none_or_eq_some (os t.xkey) with hk | ⟨seg, hk⟩
  · have he : Function.update os t.xkey none = os := by
      rw [← hk]; exact Function.update_eq_self _ _
    rw [he]
    exact shutdown_loop_absent os t.xkey hk (fuel + 1)
  · exact shutdown_loop_present os t.xkey seg hk (hacc seg hk) fuel

end Interprocess

/-- C12 (defect): under key 4242 lies a region of another user, which can be
opened and cannot be removed. `xsi_shared_memory::remove` returns false and
changes nothing; `remove_old_shared_memory` drops that result and returns true
with the region still in the namespace; and `shutdown(true)`, whose loop runs
while that call returns true, has not returned after any number of calls. -/
theorem Interprocess.shutdown_all_spins_on_unremovable_region :
    (Interprocess.foreignRegionOS Interprocess.tunnelHandle.xkey).isSome = true ∧
    Interprocess.xsi_remove Interprocess.foreignRegionOS Interprocess.tunnelHandle.xkey =
      (false, Interprocess.foreignRegionOS) ∧
    Interprocess.remove_old_shared_memory Interprocess.foreignRegionOS
        Interprocess.tunnelHandle.xkey =
      Except.ok (true, Interprocess.foreignRegionOS) ∧
    (∀ fuel, Interprocess.tunnelHandle.shutdown fuel true Interprocess.foreignRegionOS =
      none) := by
  refine ⟨rfl, rfl, rfl, ?_⟩
  intro fuel
  rw [Interprocess.shutdown_true_eq]
  exact Interprocess.shutdown_loop_unremovable _ _
    { size := 4096, used := 512, access := Interprocess.Access.openOnly,
      objects := fun _ => none } rfl rfl fuel

namespace Interprocess

end Interprocess

namespace Interprocess

theorem withQueues_zero {Share Msg : Type} (env : Env) (z : ShmemSizes) (bufferSize : Nat)
    (seg : Segment Share Msg) : seg.withQueues env z bufferSize 0 = seg := by
  cases seg with
  | mk size used access objects =>
    simp only [Segment.withQueues, Nat.zero_mul, Nat.add_zero, Segment.mk.injEq, true_and]
    funext name
    cases name <;> simp

theorem create_step_eq {Share Msg : Type} (env : Env) (z : ShmemSizes) (bufferSize : Nat)
    (seg0 : Segment Share Msg) (l : List (Option ObjName)) (m : Nat) :
    create_step env z bufferSize (seg0.withQueues env z bufferSize m, l) m =
      if seg0.used + (m + 1) *
          (env.cost z.sizeofCircBuff + env.cost (CircularBuffer.storage z bufferSize)) ≤
          seg0.size then
        Except.ok (seg0.withQueues env z bufferSize (m + 1), l ++ [some (ObjName.buffer m)])
      else Except.error Stop.bad_alloc := by
  generalize hp : env.cost z.sizeofCircBuff = p
  generalize hq : env.cost (CircularBuffer.storage z bufferSize) = q
  by_cases h1 : seg0.used + m * (p + q) + p ≤ seg0.size
  · by_cases h2 : seg0.used + m * (p + q) + p + q ≤ seg0.size
    · have h3 : seg0.used + (m + 1) * (p + q) ≤ seg0.size := by
        rw [Nat.add_mul, Nat.one_mul]; omega
      rw [if_pos h3]
      simp only [create_step, Segment.construct, Segment.allocate, Segment.withQueues, hp, hq,
        h1, h2, if_true]
      congr 2
      refine congrArg₂ (fun u o => Segment.mk seg0.size u seg0.access o) ?_ ?_
      · rw [Nat.add_mul, Nat.one_mul]; omega
      · funext name
        cases name with
        | InternalShared => simp [Function.update]
        | SharedData => simp [Function.update]
        | buffer c =>
          by_cases hc : c = m
          · subst hc; simp
          · have hne : ObjName.buffer c ≠ ObjName.buffer m := by
              intro e; cases e; exact hc rfl
            simp only [Function.update_noteq hne]
            by_cases hlt : c < m
            · rw [if_pos hlt, if_pos (by omega)]
            · rw [if_neg hlt, if_neg (by omega)]
    · have h3 : ¬ seg0.used + (m + 1) * (p + q) ≤ seg0.size := by
        rw [Nat.add_mul, Nat.one_mul]; omega
      rw [if_neg h3]
      simp only [create_step, Segment.construct, Segment.allocate, Segment.withQueues, hp, hq,
        h1, h2, if_true, if_false]
  · have h3 : ¬ seg0.used + (m + 1) * (p + q) ≤ seg0.size := by
      rw [Nat.add_mul, Nat.one_mul]; omega
    rw [if_neg h3]
    simp only [create_step, Segment.construct, Segment.allocate, Segment.withQueues, hp, hq,
      h1, if_false]

/-- Closed form of the queue-construction loop of the owner constructor: it
succeeds exactly when the bytes of `m` queues fit in what is left. -/
theorem create_fold_closed {Share Msg : Type} (env : Env) (z : ShmemSizes) (bufferSize : Nat)
    (seg0 : Segment Share Msg) (h0 : seg0.used ≤ seg0.size) (m : Nat) :
    (List.range m).foldlM (create_step env z bufferSize) (seg0, []) =
      if seg0.used + m *
          (env.cost z.sizeofCircBuff + env.cost (CircularBuffer.storage z bufferSize)) ≤
          seg0.size then
        Except.ok (seg0.withQueues env z bufferSize m,
          (List.range m).map (fun c => some (ObjName.buffer c)))
      else Except.error Stop.bad_alloc := by
  induction m with
  | zero =>
    rw [if_pos (by simpa using h0), withQueues_zero]
    rfl
  | succ m ih =>
    rw [List.range_succ, List.foldlM_append, ih]
    by_cases hm : seg0.used + m *
        (env.cost z.sizeofCircBuff + env.cost (CircularBuffer.storage z bufferSize)) ≤
        seg0.size
    · rw [if_pos hm]
      simp only [pure_bind, List.foldlM_cons, List.foldlM_nil, bind_pure, List.map_append,
        List.map_cons, List.map_nil]
      exact create_step_eq env z bufferSize seg0 _ m
    · rw [if_neg hm, if_neg]
      · rfl
      · intro h
        apply hm
        rw [Nat.add_mul, Nat.one_mul] at h
        omega

end Interprocess
namespace Interprocess

theorem get_xsi_key_ok (env : Env) (name : String) (key : Int)
    (hkey : env.ftok name 1 = Except.ok key) :
    get_xsi_key env name = Except.ok { key := key } := by
  simp [get_xsi_key, hkey]

theorem get_xsi_key_inv (env : Env) (name : String) (xkey : xsi_key)
    (h : get_xsi_key env name = Except.ok xkey) :
    env.ftok name 1 = Except.ok xkey.key := by
  simp only [get_xsi_key] at h
  split at h
  · rename_i k hk; cases h; exact hk
  · cases h

/-- After `remove_old_shared_memory` on a key whose region is absent or
removable, nothing is under the key. -/
theorem remove_old_clears {Share Msg : Type} (os : OS Share Msg) (k : xsi_key)
    (hacc : ∀ seg, os k = some seg → seg.access = Access.readWrite) :
    ∃ b, remove_old_shared_memory os k = Except.ok (b, Function.update os k none) := by
  rcases Option.eq_none_or_eq_some (os k) with hk | ⟨seg, hk⟩
  · refine ⟨false, ?_⟩
    have he : Function.update os k none = os := by
      rw [← hk]; exact Function.update_eq_self _ _
    rw [he]
    exact remove_old_absent os k hk
  · exact ⟨true, remove_old_present os k seg hk (hacc seg hk)⟩

/-- When `remove_old_shared_memory` returns and nothing is under the key
afterwards, the region was absent or removable. -/
theorem remove_old_cleared_inv {Share Msg : Type} (os os1 : OS Share Msg) (k : xsi_key)
    (b : Bool) (h : remove_old_shared_memory os k = Except.ok (b, os1)) (h1 : os1 k = none) :
    ∀ seg, os k = some seg → seg.access = Access.readWrite := by
  intro seg hk
  cases ha : seg.access
  · rw [remove_old_denied os k seg hk ha] at h
    cases h
  · rw [remove_old_unremovable os k seg hk ha] at h
    cases h
    rw [hk] at h1
    cases h1
  · rfl

theorem createdSegment_eq {Share Msg : Type} (env : Env) (z : ShmemSizes) (dflt : Share)
    (numBuffers bufferSize : Nat) :
    Segment.withQueues env z bufferSize
      ({ size := calculateShmemSize z numBuffers bufferSize,
         used := env.manager + env.cost z.sizeofISD + env.cost z.sizeofShare,
         access := Access.readWrite,
         objects := Function.update
           (Function.update (fun _ => none) ObjName.InternalShared
             (some (ShmObject.isd numBuffers)))
           ObjName.SharedData (some (ShmObject.shared dflt)) } : Segment Share Msg)
      numBuffers =
    createdSegment env z dflt numBuffers bufferSize := by
  simp only [Segment.withQueues, createdSegment, regionNeed]
  refine congrArg (fun o => Segment.mk _ _ _ o) ?_
  funext name
  cases name with
  | InternalShared => simp [Function.update]
  | SharedData => simp [Function.update]
  | buffer c => simp [Function.update]

/-- The owner constructor returns when the file of the name exists, no region
that cannot be removed is under its key, the system grants the segment, and
the bytes the objects take fit in the computed size; it then builds
`createdSegment` under the key. -/
theorem create_ok {Share Msg : Type} (env : Env) (z : ShmemSizes) (dflt : Share)
    (os : OS Share Msg) (region_name : String) (numBuffers bufferSize : Nat) (key : Int)
    (hkey : env.ftok region_name 1 = Except.ok key)
    (hacc : ∀ seg, os { key := key } = some seg → seg.access = Access.readWrite)
    (hgrant : env.shmget_create (calculateShmemSize z numBuffers bufferSize) = none)
    (hfit : regionNeed env z numBuffers bufferSize ≤
      calculateShmemSize z numBuffers bufferSize) :
    IPCTunnel.create env z dflt os region_name numBuffers bufferSize =
      Except.ok
        (handleOn { key := key } numBuffers,
         Function.update os { key := key }
           (some (createdSegment env z dflt numBuffers bufferSize))) := by
  obtain ⟨b, hr⟩ := remove_old_clears os { key := key } hacc
  have hfold := @create_fold_closed Share Msg env z bufferSize
    { size := calculateShmemSize z numBuffers bufferSize,
      used := env.manager + env.cost z.sizeofISD + env.cost z.sizeofShare,
      access := Access.readWrite,
      objects := Function.update
        (Function.update (fun _ => none) ObjName.InternalShared
          (some (ShmObject.isd numBuffers)))
        ObjName.SharedData (some (ShmObject.shared dflt)) }
    (by
      simp only [regionNeed] at hfit
      show env.manager + env.cost z.sizeofISD + env.cost z.sizeofShare ≤
        calculateShmemSize z numBuffers bufferSize
      omega) numBuffers
  rw [if_pos (by simp only [regionNeed] at hfit; exact hfit), createdSegment_eq] at hfold
  simp only [regionNeed] at hfit
  have hm : ¬ calculateShmemSize z numBuffers bufferSize < env.manager := by omega
  have h1 : env.manager + env.cost z.sizeofISD ≤
      calculateShmemSize z numBuffers bufferSize := by omega
  have h2 : env.manager + env.cost z.sizeofISD + env.cost z.sizeofShare ≤
      calculateShmemSize z numBuffers bufferSize := by omega
  simp only [IPCTunnel.create, get_xsi_key_ok env region_name key hkey, hr,
    managed_xsi_shared_memory.create_only, hm, if_false, Function.update_same, hgrant,
    Segment.construct, Segment.allocate, h1, h2, if_true, hfold, Function.update_idem,
    handleOn]

/-- Whenever the owner constructor returns, the file of the name exists, no
region that cannot be removed was under its key, the system granted the
segment, and the bytes the objects take fit in the computed size. -/
theorem create_ok_inv {Share Msg : Type} (env : Env) (z : ShmemSizes) (dflt : Share)
    (os : OS Share Msg) (region_name : String) (numBuffers bufferSize : Nat)
    (t : IPCTunnel) (os1 : OS Share Msg)
    (h : IPCTunnel.create env z dflt os region_name numBuffers bufferSize =
      Except.ok (t, os1)) :
    env.ftok region_name 1 = Except.ok t.xkey.key ∧
    (∀ seg, os t.xkey = some seg → seg.access = Access.readWrite) ∧
    env.shmget_create (calculateShmemSize z numBuffers bufferSize) = none ∧
    regionNeed env z numBuffers bufferSize ≤ calculateShmemSize z numBuffers bufferSize := by
  simp only [IPCTunnel.create] at h
  split at h
  · cases h
  · rename_i xkey hx
    split at h
    · cases h
    · rename_i b os2 hr
      split at h
      · cases h
      · rename_i seg0 hc
        simp only [managed_xsi_shared_memory.create_only] at hc
        split at hc
        · cases hc
        · rename_i hm
          split at hc
          · cases hc
          · rename_i hnone
            split at hc
            · cases hc
            · rename_i hgrant
              cases hc
              simp only [Segment.construct, Segment.allocate] at h
              by_cases h1 : env.manager + env.cost z.sizeofISD ≤
                  calculateShmemSize z numBuffers bufferSize
              · simp only [h1, if_true] at h
                by_cases h2 : env.manager + env.cost z.sizeofISD + env.cost z.sizeofShare ≤
                    calculateShmemSize z numBuffers bufferSize
                · simp only [h2, if_true] at h
                  rw [create_fold_closed env z bufferSize _ h2 numBuffers] at h
                  by_cases h3 : env.manager + env.cost z.sizeofISD + env.cost z.sizeofShare +
                      numBuffers * (env.cost z.sizeofCircBuff +
                        env.cost (CircularBuffer.storage z bufferSize)) ≤
                      calculateShmemSize z numBuffers bufferSize
                  · simp only [h3, if_true] at h
                    cases h
                    exact ⟨get_xsi_key_inv env region_name xkey hx,
                      remove_old_cleared_inv os os2 xkey b hr hnone, hgrant, h3⟩
                  · simp only [h3, if_false] at h
                    cases h
                · simp only [h2, if_false] at h
                  cases h
              · simp only [h1, if_false] at h
                cases h

/-- The peer constructor run on a namespace that holds, under the key of the
name, a segment of this user with the header and the `numBuffers` queues builds
the handle `handleOn`. -/
theorem open_existing_ok_of_objects {Share Msg : Type} (env : Env) (os : OS Share Msg)
    (region_name : String) (key : Int) (seg : Segment Share Msg) (numBuffers : Nat)
    (hkey : env.ftok region_name 1 = Except.ok key)
    (hk : os { key := key } = some seg) (ha : seg.access = Access.readWrite)
    (hisd : seg.objects ObjName.InternalShared = some (ShmObject.isd numBuffers))
    (hsd : (seg.objects ObjName.SharedData).isSome = true)
    (hbuf : ∀ c, c < numBuffers → (seg.objects (ObjName.buffer c)).isSome = true) :
    IPCTunnel.open_existing env os region_name =
      Except.ok (handleOn { key := key } numBuffers) := by
  have hfind : ∀ name, (seg.objects name).isSome = true → seg.find name = some name := by
    intro name h
    rcases Option.eq_none_or_eq_some (seg.objects name) with hn | ⟨o, hn⟩
    · rw [hn] at h; cases h
    · simp [Segment.find, hn]
  have hmap : (List.range numBuffers).map (fun c => seg.find (ObjName.buffer c)) =
      (List.range numBuffers).map (fun c => some (ObjName.buffer c)) := by
    apply List.map_congr_left
    intro c hc
    exact hfind _ (hbuf c (List.mem_range.mp hc))
  simp only [IPCTunnel.open_existing, get_xsi_key_ok env region_name key hkey,
    managed_xsi_shared_memory.open_only, hk, ha, if_true, hisd, hmap,
    hfind _ hsd, hfind ObjName.InternalShared (by rw [hisd]; rfl), handleOn]

theorem queue_eq {Share Msg : Type} (t : IPCTunnel) (c : Nat) (os : OS Share Msg)
    (seg : Segment Share Msg) (name : ObjName)
    (hc : t.circBuffs[c]? = some (some name)) (hk : os t.xkey = some seg) :
    t.queue c os =
      match seg.objects name with
      | some (ShmObject.circ b) => some b
      | _ => none := by
  simp only [IPCTunnel.queue, hc, hk]

theorem setQueue_eq {Share Msg : Type} (t : IPCTunnel) (c : Nat) (b : CircularBuffer Msg)
    (os : OS Share Msg) (seg : Segment Share Msg) (name : ObjName)
    (hc : t.circBuffs[c]? = some (some name)) (hk : os t.xkey = some seg) :
    t.setQueue c b os =
      Function.update os t.xkey
        (some { seg with
          objects := Function.update seg.objects name (some (ShmObject.circ b)) }) := by
  simp only [IPCTunnel.setQueue, hc, hk]

theorem circBuffs_getElem (N c : Nat) :
    ((List.range N).map (fun c => some (ObjName.buffer c)))[c]? =
      if c < N then some (some (ObjName.buffer c)) else none := by
  by_cases h : c < N
  · rw [if_pos h, List.getElem?_map, List.getElem?_range h]; rfl
  · rw [if_neg h, List.getElem?_map, List.getElem?_eq_none (by simp; omega)]; rfl

end Interprocess

namespace Interprocess

/-- What a handle with `N` queue pointers `buffer0 .. buffer(N-1)` needs for
`circBuffs[c]` to lead to a queue. -/
theorem queue_some {Share Msg : Type} (t : IPCTunnel) (N : Nat)
    (hcb : t.circBuffs = (List.range N).map (fun c => some (ObjName.buffer c)))
    (os : OS Share Msg) (c : Nat) (b : CircularBuffer Msg) (hq : t.queue c os = some b) :
    c < N ∧ t.circBuffs[c]? = some (some (ObjName.buffer c)) ∧
    ∃ seg, os t.xkey = some seg ∧ seg.objects (ObjName.buffer c) = some (ShmObject.circ b) := by
  have hget : t.circBuffs[c]? = if c < N then some (some (ObjName.buffer c)) else none := by
    rw [hcb]; exact circBuffs_getElem N c
  by_cases hc : c < N
  · rw [if_pos hc] at hget
    refine ⟨hc, hget, ?_⟩
    rcases Option.eq_none_or_eq_some (os t.xkey) with hk | ⟨seg, hk⟩
    · simp [IPCTunnel.queue, hget, hk] at hq
    · refine ⟨seg, hk, ?_⟩
      rw [queue_eq t c os seg _ hget hk] at hq
      split at hq
      · rename_i b1 hobj
        cases hq
        exact hobj
      · cases hq
  · rw [if_neg hc] at hget
    simp [IPCTunnel.queue, hget] at hq

/-- Storing a queue under `buffer<c>` changes that queue alone. -/
theorem queue_setQueue {Share Msg : Type} (t u : IPCTunnel) (N : Nat)
    (hcb : t.circBuffs = (List.range N).map (fun c => some (ObjName.buffer c)))
    (hub : u.circBuffs = t.circBuffs) (hux : u.xkey = t.xkey)
    (os : OS Share Msg) (c : Nat) (b b1 : CircularBuffer Msg) (hq : t.queue c os = some b) :
    u.queue c (t.setQueue c b1 os) = some b1 ∧
    (∀ c1, c1 ≠ c → u.queue c1 (t.setQueue c b1 os) = u.queue c1 os) ∧
    (∀ k, k ≠ t.xkey → (t.setQueue c b1 os) k = os k) := by
  obtain ⟨hc, hget, seg, hk, _⟩ := queue_some t N hcb os c b hq
  rw [setQueue_eq t c b1 os seg _ hget hk]
  have hk1 : (Function.update os t.xkey
      (some { seg with
        objects := Function.update seg.objects (ObjName.buffer c)
          (some (ShmObject.circ b1)) })) u.xkey =
      some { seg with
        objects := Function.update seg.objects (ObjName.buffer c)
          (some (ShmObject.circ b1)) } := by
    rw [hux]; exact Function.update_same _ _ _
  have hku : os u.xkey = some seg := by rw [hux]; exact hk
  refine ⟨?_, ?_, ?_⟩
  · rw [queue_eq u c _ _ _ (by rw [hub]; exact hget) hk1]
    simp
  · intro c1 hne
    have hget1 : u.circBuffs[c1]? =
        if c1 < N then some (some (ObjName.buffer c1)) else none := by
      rw [hub, hcb]; exact circBuffs_getElem N c1
    by_cases hc1 : c1 < N
    · rw [if_pos hc1] at hget1
      rw [queue_eq u c1 _ _ _ hget1 hk1, queue_eq u c1 os seg _ hget1 hku]
      have hn : ObjName.buffer c1 ≠ ObjName.buffer c := by
        intro e; cases e; exact hne rfl
      simp only [Function.update_noteq hn]
    · rw [if_neg hc1] at hget1
      simp [IPCTunnel.queue, hget1]
  · intro k hne
    exact Function.update_noteq hne _ _

theorem writeMessage_ok {Share Msg : Type} (t : IPCTunnel) (os os1 : OS Share Msg) (c : Nat)
    (m : Msg) (h : t.writeMessage c m os = Except.ok os1) :
    ∃ b, t.queue c os = some b ∧ b.items.length < b.buffSize ∧
      os1 = t.setQueue c { b with items := b.items ++ [m] } os := by
  simp only [IPCTunnel.writeMessage] at h
  rcases Option.eq_none_or_eq_some (t.queue c os) with hq | ⟨b, hq⟩
  · simp [hq] at h
  · refine ⟨b, hq, ?_⟩
    simp only [hq, CircularBuffer.write] at h
    by_cases hl : b.items.length < b.buffSize
    · simp only [hl, if_true] at h
      cases h
      exact ⟨hl, rfl⟩
    · simp [hl] at h

theorem writeMessage_room {Share Msg : Type} (t : IPCTunnel) (os : OS Share Msg) (c : Nat)
    (m : Msg) (b : CircularBuffer Msg) (hq : t.queue c os = some b)
    (hl : b.items.length < b.buffSize) :
    t.writeMessage c m os = Except.ok (t.setQueue c { b with items := b.items ++ [m] } os) := by
  simp [IPCTunnel.writeMessage, hq, CircularBuffer.write, hl]

theorem readMessage_head {Share Msg : Type} (t : IPCTunnel) (os : OS Share Msg) (c : Nat)
    (m : Msg) (rest : List Msg) (n : Nat)
    (hq : t.queue c os = some { buffSize := n, items := m :: rest }) :
    t.readMessage c os = Except.ok (m, t.setQueue c { buffSize := n, items := rest } os) := by
  simp [IPCTunnel.readMessage, hq, CircularBuffer.read]

/-- The owner constructor throws `not_found_error` when no file has the name of
the region. -/
theorem create_fails_without_file :
    IPCTunnel.create tunnelEnv ⟨4096, 64, 2, 8, 8⟩ (0 : Nat) (emptyOS Nat Nat)
        "no_such_file" 2 4 =
      Except.error (Stop.raised error_code.not_found_error) := by
  rfl

/-- The owner constructor on a key that holds a region of another user: the
removal fails unnoticed and `create_only` throws `already_exists_error`. -/
theorem create_fails_on_unremovable_region :
    IPCTunnel.create tunnelEnv ⟨4096, 64, 2, 8, 8⟩ (0 : Nat) foreignRegionOS
        "tunnel" 2 4 =
      Except.error (Stop.raised error_code.already_exists_error) := by
  rfl

/-- One queue of 2^63 two-byte slots: the size computed for the region wraps to
16384 bytes, and the owner constructor throws `bad_alloc`. -/
theorem create_fails_when_undersized :
    calculateShmemSize ⟨4096, 64, 2, 8, 8⟩ 1 9223372036854775808 = 16384 ∧
    IPCTunnel.create tunnelEnv ⟨4096, 64, 2, 8, 8⟩ (0 : Nat) (emptyOS Nat Nat)
        "tunnel" 1 9223372036854775808 =
      Except.error Stop.bad_alloc := by
  refine ⟨by decide, ?_⟩
  rfl

end Interprocess
/-- C16: the owner constructor called with `numBuffers = N` returns exactly when
the file of the region name exists, no region that cannot be removed is under
its key, the system grants the segment and the objects fit in the computed
size; whenever it returns, the region under the key holds the header with
`numBuffers = N`, the shared record, and a queue under `buffer<c>` exactly for
`c < N`, and the owner's queue list has length `N` with index `c` bound to
`buffer<c>`; the peer constructor run on that namespace builds the same queue
list on the same key, so both sides address the same queue;
`writeMessage(c, m)` appends `m` to queue `c` and leaves every other queue and
every other region unchanged; and on the fresh region a `readMessage(c)` after
`writeMessage(c, m)` returns `m`. -/
theorem Interprocess.owner_and_peer_share_queues {Share Msg : Type}
    (env : Interprocess.Env) (z : ShmemSizes) (dflt : Share)
    (os : Interprocess.OS Share Msg) (region_name : String) (numBuffers bufferSize : Nat) :
    (∀ key : Int, env.ftok region_name 1 = Except.ok key →
      (∀ seg, os { key := key } = some seg →
        seg.access = Interprocess.Access.readWrite) →
      env.shmget_create (calculateShmemSize z numBuffers bufferSize) = none →
      Interprocess.regionNeed env z numBuffers bufferSize ≤
        calculateShmemSize z numBuffers bufferSize →
      Interprocess.IPCTunnel.create env z dflt os region_name numBuffers bufferSize =
        Except.ok
          (Interprocess.handleOn { key := key } numBuffers,
           Function.update os { key := key }
             (some (Interprocess.createdSegment env z dflt numBuffers bufferSize)))) ∧
    (∀ (t : Interprocess.IPCTunnel) (os1 : Interprocess.OS Share Msg),
      Interprocess.IPCTunnel.create env z dflt os region_name numBuffers bufferSize =
        Except.ok (t, os1) →
      env.ftok region_name 1 = Except.ok t.xkey.key ∧
      (∀ seg, os t.xkey = some seg → seg.access = Interprocess.Access.readWrite) ∧
      env.shmget_create (calculateShmemSize z numBuffers bufferSize) = none ∧
      Interprocess.regionNeed env z numBuffers bufferSize ≤
        calculateShmemSize z numBuffers bufferSize ∧
      t = Interprocess.handleOn t.xkey numBuffers ∧
      os1 = Function.update os t.xkey
        (some (Interprocess.createdSegment env z dflt numBuffers bufferSize)) ∧
      Interprocess.IPCTunnel.open_existing env os1 region_name = Except.ok t) ∧
    ((Interprocess.createdSegment env z dflt numBuffers bufferSize :
      Interprocess.Segment Share Msg).objects Interprocess.ObjName.InternalShared =
        some (Interprocess.ShmObject.isd numBuffers) ∧
     (Interprocess.createdSegment env z dflt numBuffers bufferSize :
      Interprocess.Segment Share Msg).objects Interprocess.ObjName.SharedData =
        some (Interprocess.ShmObject.shared dflt) ∧
     (∀ c, (Interprocess.createdSegment env z dflt numBuffers bufferSize :
        Interprocess.Segment Share Msg).objects (Interprocess.ObjName.buffer c) =
      if c < numBuffers then
        some (Interprocess.ShmObject.circ { buffSize := bufferSize, items := [] })
      else none)) ∧
    (∀ xkey : Interprocess.xsi_key,
      (Interprocess.handleOn xkey numBuffers).xkey = xkey ∧
      (Interprocess.handleOn xkey numBuffers).circBuffs.length = numBuffers ∧
      (∀ c, c < numBuffers →
        (Interprocess.handleOn xkey numBuffers).circBuffs[c]? =
          some (some (Interprocess.ObjName.buffer c)))) ∧
    (∀ key : Int, env.ftok region_name 1 = Except.ok key →
      Interprocess.IPCTunnel.open_existing env
          (Function.update os { key := key }
            (some (Interprocess.createdSegment env z dflt numBuffers bufferSize)))
          region_name =
        Except.ok (Interprocess.handleOn { key := key } numBuffers)) ∧
    (∀ (xkey : Interprocess.xsi_key) (os2 os3 : Interprocess.OS Share Msg) (c : Nat)
      (m : Msg),
      (Interprocess.handleOn xkey numBuffers).writeMessage c m os2 = Except.ok os3 →
      (∃ b, (Interprocess.handleOn xkey numBuffers).queue c os2 = some b ∧
        (Interprocess.handleOn xkey numBuffers).queue c os3 =
          some { b with items := b.items ++ [m] }) ∧
      (∀ c1, c1 ≠ c →
        (Interprocess.handleOn xkey numBuffers).queue c1 os3 =
          (Interprocess.handleOn xkey numBuffers).queue c1 os2) ∧
      (∀ k, k ≠ xkey → os3 k = os2 k)) ∧
    (∀ (xkey : Interprocess.xsi_key) (c : Nat) (m : Msg), c < numBuffers → 0 < bufferSize →
      (Interprocess.handleOn xkey numBuffers).writeMessage c m
          (Function.update os xkey
            (some (Interprocess.createdSegment env z dflt numBuffers bufferSize))) =
        Except.ok
          ((Interprocess.handleOn xkey numBuffers).setQueue c
            { buffSize := bufferSize, items := [m] }
            (Function.update os xkey
              (some (Interprocess.createdSegment env z dflt numBuffers bufferSize)))) ∧
      (Interprocess.handleOn xkey numBuffers).readMessage c
          ((Interprocess.handleOn xkey numBuffers).setQueue c
            { buffSize := bufferSize, items := [m] }
            (Function.update os xkey
              (some (Interprocess.createdSegment env z dflt numBuffers bufferSize)))) =
        Except.ok (m,
          (Interprocess.handleOn xkey numBuffers).setQueue c
            { buffSize := bufferSize, items := [] }
            ((Interprocess.handleOn xkey numBuffers).setQueue c
              { buffSize := bufferSize, items := [m] }
              (Function.update os xkey
                (some (Interprocess.createdSegment env z dflt numBuffers bufferSize)))))) := by
  have hisd : (Interprocess.createdSegment env z dflt numBuffers bufferSize :
      Interprocess.Segment Share Msg).objects Interprocess.ObjName.InternalShared =
        some (Interprocess.ShmObject.isd numBuffers) := rfl
  have hsd : (Interprocess.createdSegment env z dflt numBuffers bufferSize :
      Interprocess.Segment Share Msg).objects Interprocess.ObjName.SharedData =
        some (Interprocess.ShmObject.shared dflt) := rfl
  have hbuf : ∀ c, (Interprocess.createdSegment env z dflt numBuffers bufferSize :
        Interprocess.Segment Share Msg).objects (Interprocess.ObjName.buffer c) =
      if c < numBuffers then
        some (Interprocess.ShmObject.circ { buffSize := bufferSize, items := [] })
      else none := fun _ => rfl
  have hcb : ∀ xkey : Interprocess.xsi_key,
      (Interprocess.handleOn xkey numBuffers).circBuffs =
        (List.range numBuffers).map (fun c => some (Interprocess.ObjName.buffer c)) :=
    fun _ => rfl
  have hget : ∀ (xkey : Interprocess.xsi_key) (c : Nat), c < numBuffers →
      (Interprocess.handleOn xkey numBuffers).circBuffs[c]? =
        some (some (Interprocess.ObjName.buffer c)) := by
    intro xkey c hlt
    rw [hcb, Interprocess.circBuffs_getElem, if_pos hlt]
  have hopen : ∀ key : Int, env.ftok region_name 1 = Except.ok key →
      Interprocess.IPCTunnel.open_existing env
          (Function.update os { key := key }
            (some (Interprocess.createdSegment env z dflt numBuffers bufferSize)))
          region_name =
        Except.ok (Interprocess.handleOn { key := key } numBuffers) := by
    intro key hkey
    apply Interprocess.open_existing_ok_of_objects env _ region_name key _ numBuffers hkey
      (Function.update_same _ _ _) rfl hisd
    · rw [hsd]; rfl
    · intro c hlt
      rw [hbuf c, if_pos hlt]; rfl
  refine ⟨?_, ?_, ⟨hisd, hsd, hbuf⟩, ?_, hopen, ?_, ?_⟩
  · intro key hkey hacc hgrant hfit
    exact Interprocess.create_ok env z dflt os region_name numBuffers bufferSize key hkey hacc
      hgrant hfit
  · intro t os1 h
    obtain ⟨hkey, hacc, hgrant, hfit⟩ :=
      Interprocess.create_ok_inv env z dflt os region_name numBuffers bufferSize t os1 h
    have hc := Interprocess.create_ok env z dflt os region_name numBuffers bufferSize
      t.xkey.key hkey hacc hgrant hfit
    rw [h] at hc
    have ht : t = Interprocess.handleOn t.xkey numBuffers := (Prod.mk.inj (Except.ok.inj hc)).1
    have hos : os1 = Function.update os t.xkey
        (some (Interprocess.createdSegment env z dflt numBuffers bufferSize)) :=
      (Prod.mk.inj (Except.ok.inj hc)).2
    refine ⟨hkey, hacc, hgrant, hfit, ht, hos, ?_⟩
    rw [hos, ht]
    exact hopen t.xkey.key hkey
  · intro xkey
    refine ⟨rfl, ?_, hget xkey⟩
    rw [hcb, List.length_map, List.length_range]
  · intro xkey os2 os3 c m hw
    obtain ⟨b, hq, _, hos3⟩ := Interprocess.writeMessage_ok _ os2 os3 c m hw
    obtain ⟨h1, h2, h3⟩ := Interprocess.queue_setQueue
      (Interprocess.handleOn xkey numBuffers)
      (Interprocess.handleOn xkey numBuffers) numBuffers (hcb xkey) rfl rfl os2 c b
      { b with items := b.items ++ [m] } hq
    rw [hos3]
    exact ⟨⟨b, hq, h1⟩, h2, h3⟩
  · intro xkey c m hlt hbs
    have hq : (Interprocess.handleOn xkey numBuffers).queue c
        (Function.update os xkey
          (some (Interprocess.createdSegment env z dflt numBuffers bufferSize))) =
        some { buffSize := bufferSize, items := [] } := by
      have hk : (Function.update os xkey
          (some (Interprocess.createdSegment env z dflt numBuffers bufferSize)))
          (Interprocess.handleOn xkey numBuffers).xkey =
          some (Interprocess.createdSegment env z dflt numBuffers bufferSize) :=
        Function.update_same _ _ _
      rw [Interprocess.queue_eq _ c _ _ _ (hget xkey c hlt) hk, hbuf c, if_pos hlt]
    have hw := Interprocess.writeMessage_room _ _ c m _ hq (by simpa using hbs)
    refine ⟨hw, ?_⟩
    apply Interprocess.readMessage_head
    exact (Interprocess.queue_setQueue
      (Interprocess.handleOn xkey numBuffers)
      (Interprocess.handleOn xkey numBuffers) numBuffers (hcb xkey) rfl rfl _ c _
      { buffSize := bufferSize, items := [m] } hq).1

/-- C16 witness: in a system where the file `"tunnel"` has key 4242, the owner
creates `"tunnel"` with two queues of four slots on an empty namespace (the
objects take 864 of the 20480 bytes), the peer opens it, the owner writes 77 to
queue 1 and the peer reads 77 from queue 1. -/
theorem Interprocess.owner_and_peer_share_queues_witness :
    Interprocess.regionNeed Interprocess.tunnelEnv ⟨4096, 64, 2, 8, 8⟩ 2 4 = 864 ∧
    calculateShmemSize ⟨4096, 64, 2, 8, 8⟩ 2 4 = 20480 ∧
    Interprocess.IPCTunnel.create Interprocess.tunnelEnv ⟨4096, 64, 2, 8, 8⟩ (0 : Nat)
        (Interprocess.emptyOS Nat Nat) "tunnel" 2 4 =
      Except.ok
        (Interprocess.handleOn { key := 4242 } 2,
         Function.update (Interprocess.emptyOS Nat Nat) { key := 4242 }
           (some (Interprocess.createdSegment Interprocess.tunnelEnv
             ⟨4096, 64, 2, 8, 8⟩ (0 : Nat) 2 4))) ∧
    Interprocess.IPCTunnel.open_existing Interprocess.tunnelEnv
        (Function.update (Interprocess.emptyOS Nat Nat) { key := 4242 }
          (some (Interprocess.createdSegment Interprocess.tunnelEnv
            ⟨4096, 64, 2, 8, 8⟩ (0 : Nat) 2 4)))
        "tunnel" =
      Except.ok (Interprocess.handleOn { key := 4242 } 2) ∧
    (Interprocess.handleOn { key := 4242 } 2).readMessage 1
        ((Interprocess.handleOn { key := 4242 } 2).setQueue 1 { buffSize := 4, items := [77] }
          (Function.update (Interprocess.emptyOS Nat Nat) { key := 4242 }
            (some (Interprocess.createdSegment Interprocess.tunnelEnv
              ⟨4096, 64, 2, 8, 8⟩ (0 : Nat) 2 4)))) =
      Except.ok (77,
        (Interprocess.handleOn { key := 4242 } 2).setQueue 1 { buffSize := 4, items := [] }
          ((Interprocess.handleOn { key := 4242 } 2).setQueue 1
            { buffSize := 4, items := [77] }
            (Function.update (Interprocess.emptyOS Nat Nat) { key := 4242 }
              (some (Interprocess.createdSegment Interprocess.tunnelEnv
                ⟨4096, 64, 2, 8, 8⟩ (0 : Nat) 2 4))))) :=
  ⟨by decide, by decide,
   (Interprocess.owner_and_peer_share_queues Interprocess.tunnelEnv ⟨4096, 64, 2, 8, 8⟩
      (0 : Nat) (Interprocess.emptyOS Nat Nat) "tunnel" 2 4).1 4242 rfl
      (fun seg h => by simp [Interprocess.emptyOS] at h) rfl (by decide),
   (Interprocess.owner_and_peer_share_queues Interprocess.tunnelEnv ⟨4096, 64, 2, 8, 8⟩
      (0 : Nat) (Interprocess.emptyOS Nat Nat) "tunnel" 2 4).2.2.2.2.1 4242 rfl,
   ((Interprocess.owner_and_peer_share_queues Interprocess.tunnelEnv ⟨4096, 64, 2, 8, 8⟩
      (0 : Nat) (Interprocess.emptyOS Nat Nat) "tunnel" 2 4).2.2.2.2.2.2
        { key := 4242 } 1 77 (by decide) (by decide)).2⟩

/-! ## Theorems: the receive loop stays inside its buffer -/

/-- One pass through the body of the receive loop against the messages of the
send loop: the fragment lands at `[o, o + 10^9)`, inside the buffer, and the
loop goes on with `rem_size - 10^9` and `offset + 10^9`. -/
theorem recv_loop_one_pass (payload : List Byte) (r o : Nat) (buf : List Byte)
    (tr : List (Int × Int)) (hr : 1000000000 ≤ r) (hlen : o + r = payload.length)
    (hb : payload.length < 9223372036854775808)
    (hbl : buf.length = payload.length) (hpre : buf.take o = payload.take o) :
    recv_loop (r : Int) (o : Int)
        { buffer := buf,
          queue := (send_loop (r : Int) (o : Int)).map
            (fun f => Message.bytes (slice payload f.1 f.2)),
          trace := tr } =
      recv_loop ((r - 1000000000 : Nat) : Int) ((o + 1000000000 : Nat) : Int)
        { buffer := buf.take o ++ (payload.drop o).take 1000000000 ++
            buf.drop (o + 1000000000),
          queue := (send_loop ((r - 1000000000 : Nat) : Int)
            ((o + 1000000000 : Nat) : Int)).map
            (fun f => Message.bytes (slice payload f.1 f.2)),
          trace := tr ++ [((o : Int), (1000000000 : Int))] } ∧
    (buf.take o ++ (payload.drop o).take 1000000000 ++
      buf.drop (o + 1000000000)).length = payload.length ∧
    (buf.take o ++ (payload.drop o).take 1000000000 ++
      buf.drop (o + 1000000000)).take (o + 1000000000) =
        payload.take (o + 1000000000) := by
  have e := slice_natCast payload o 1000000000
  have ec : (1000000000 : Int) = ((1000000000 : Nat) : Int) := by norm_num
  have hl : ((payload.drop o).take 1000000000).length = 1000000000 := by
    rw [List.length_take, List.length_drop]; omega
  have hrecv := MPI_Recv_bytes_ok o 1000000000 buf ((payload.drop o).take 1000000000)
    ((send_loop ((r - 1000000000 : Nat) : Int) ((o + 1000000000 : Nat) : Int)).map
      (fun f => Message.bytes (slice payload f.1 f.2))) tr (by omega) (by omega)
  rw [hl, ← ec] at hrecv
  rw [← ec] at e
  refine ⟨?_, ?_, ?_⟩
  · rw [send_loop_step r o hr (by omega), List.map_cons, e,
      recv_loop_step_some r o _ _ hr (by omega) hrecv]
  · simp only [List.length_append, List.length_take, List.length_drop]
    omega
  · have hl2 : (buf.take o ++ (payload.drop o).take 1000000000).length = o + 1000000000 := by
      simp only [List.length_append, List.length_take, List.length_drop]
      omega
    rw [List.take_append_of_le_length (by omega), List.take_of_length_le (by omega), hpre,
      List.take_add]

/-- State of the receive loop at its `i`-th test, for `i <= size / 10^9`: the
loop variables are `rem_size = size - i * 10^9` and `offset = i * 10^9`, `i`
receives have been issued and the buffer still has `size` bytes. -/
theorem recv_loop_at_iteration (payload : List Byte)
    (hb : payload.length < 9223372036854775808) (i : Nat) :
    i ≤ payload.length / 1000000000 →
    ∃ (buf : List Byte) (tr : List (Int × Int)),
      buf.length = payload.length ∧
      buf.take (i * 1000000000) = payload.take (i * 1000000000) ∧
      tr.length = i ∧
      recv_loop (payload.length : Int) 0
          { buffer := List.replicate payload.length 0,
            queue := (send_loop (payload.length : Int) 0).map
              (fun f => Message.bytes (slice payload f.1 f.2)),
            trace := [] } =
        recv_loop ((payload.length - i * 1000000000 : Nat) : Int)
          ((i * 1000000000 : Nat) : Int)
          { buffer := buf,
            queue := (send_loop ((payload.length - i * 1000000000 : Nat) : Int)
              ((i * 1000000000 : Nat) : Int)).map
              (fun f => Message.bytes (slice payload f.1 f.2)),
            trace := tr } := by
  induction i with
  | zero =>
    intro _
    refine ⟨List.replicate payload.length 0, [], List.length_replicate _ _, ?_, rfl, ?_⟩
    · rw [Nat.zero_mul, List.take_zero, List.take_zero]
    · rw [Nat.zero_mul, Nat.sub_zero, Nat.cast_zero]
  | succ i ih =>
    intro hi
    obtain ⟨buf, tr, hbl, hpre, htr, hrun⟩ := ih (by omega)
    have hr : 1000000000 ≤ payload.length - i * 1000000000 := by omega
    obtain ⟨h1, h2, h3⟩ := recv_loop_one_pass payload (payload.length - i * 1000000000)
      (i * 1000000000) buf tr hr (by omega) hb hbl hpre
    have e1 : payload.length - i * 1000000000 - 1000000000 =
        payload.length - (i + 1) * 1000000000 := by omega
    have e2 : i * 1000000000 + 1000000000 = (i + 1) * 1000000000 := by omega
    rw [e1, e2] at h1
    rw [e2] at h2 h3
    refine ⟨_, _, h2, h3, ?_, hrun.trans h1⟩
    rw [List.length_append, htr, List.length_singleton]

theorem recv_send_eq_recv_loop (payload : List Byte)
    (hb : payload.length < 9223372036854775808) :
    recv (send payload) =
      recv_loop (payload.length : Int) 0
        { buffer := List.replicate payload.length 0,
          queue := (send_loop (payload.length : Int) 0).map
            (fun f => Message.bytes (slice payload f.1 f.2)),
          trace := [] } := by
  rw [send_eq, toInt64_of_nonneg_lt _ (by omega) (by omega), recv_cons_int64,
    if_neg (by omega), Int.toNat_ofNat]

/-- C15: `Comms::recv` run on a length prefix `size` (any `int64_t` value
`>= 0`) and the fragments that follow it returns, with the `size`-byte buffer
filled; the loop test passes `size / 10^9` times and then fails; at the `i`-th
test `offset = i * 10^9`, `rem_size = size - i * 10^9 >= 0` and
`offset + rem_size = size`; receive `i` is issued for `[i * 10^9, (i+1) * 10^9)`
and the last for the `size % 10^9` bytes up to `size`, so every window lies in
the buffer, the windows follow one another from 0 to `size`, and each byte is
written once. -/
theorem recv_terminates_inside_buffer (payload : List Byte)
    (hb : payload.length < 9223372036854775808) :
    recv (send payload) =
      some { buffer := payload, queue := [], trace := send_loop (payload.length : Int) 0 } ∧
    recv (send payload) =
      recv_loop (payload.length : Int) 0
        { buffer := List.replicate payload.length 0,
          queue := (send_loop (payload.length : Int) 0).map
            (fun f => Message.bytes (slice payload f.1 f.2)),
          trace := [] } ∧
    (send_loop (payload.length : Int) 0).length = payload.length / 1000000000 + 1 ∧
    (∀ i, i < payload.length / 1000000000 →
      (payload.length : Int) - (i : Int) * 1000000000 ≥ fragment_size) ∧
    ¬ ((payload.length : Int) - ((payload.length / 1000000000 : Nat) : Int) * 1000000000 ≥
      fragment_size) ∧
    (∀ i, i ≤ payload.length / 1000000000 →
      (0 : Int) ≤ (payload.length : Int) - (i : Int) * 1000000000 ∧
      (i : Int) * 1000000000 + ((payload.length : Int) - (i : Int) * 1000000000) =
        (payload.length : Int) ∧
      ((payload.length - i * 1000000000 : Nat) : Int) =
        (payload.length : Int) - (i : Int) * 1000000000 ∧
      ∃ (buf : List Byte) (tr : List (Int × Int)),
        buf.length = payload.length ∧ tr.length = i ∧
        recv_loop (payload.length : Int) 0
            { buffer := List.replicate payload.length 0,
              queue := (send_loop (payload.length : Int) 0).map
                (fun f => Message.bytes (slice payload f.1 f.2)),
              trace := [] } =
          recv_loop ((payload.length - i * 1000000000 : Nat) : Int)
            ((i * 1000000000 : Nat) : Int)
            { buffer := buf,
              queue := (send_loop ((payload.length - i * 1000000000 : Nat) : Int)
                ((i * 1000000000 : Nat) : Int)).map
                (fun f => Message.bytes (slice payload f.1 f.2)),
              trace := tr }) ∧
    (∀ i, i < payload.length / 1000000000 →
      (send_loop (payload.length : Int) 0)[i]? =
        some (((i * 1000000000 : Nat) : Int), (1000000000 : Int)) ∧
      i * 1000000000 + 1000000000 ≤ payload.length) ∧
    (send_loop (payload.length : Int) 0)[payload.length / 1000000000]? =
      some (((payload.length / 1000000000 * 1000000000 : Nat) : Int),
        ((payload.length % 1000000000 : Nat) : Int)) ∧
    payload.length / 1000000000 * 1000000000 + payload.length % 1000000000 =
      payload.length := by
  have hc := send_loop_closed (payload.length / 1000000000) payload.length 0 rfl (by omega)
  rw [Nat.cast_zero] at hc
  simp only [Nat.zero_add] at hc
  refine ⟨recv_send payload hb, recv_send_eq_recv_loop payload hb,
    send_loop_length _ hb, ?_, ?_, ?_, ?_, ?_, by omega⟩
  · intro i hi
    simp only [fragment_size]
    omega
  · simp only [fragment_size]
    omega
  · intro i hi
    obtain ⟨buf, tr, h1, _, h3, h4⟩ := recv_loop_at_iteration payload hb i hi
    refine ⟨by omega, by omega, by omega, buf, tr, h1, h3, h4⟩
  · intro i hi
    constructor
    · rw [hc, List.getElem?_append_left (by simp only [List.length_map, List.length_range]; exact hi),
        List.getElem?_map, List.getElem?_range hi]
      rfl
    · omega
  · rw [hc, List.getElem?_append_right
      (by simp only [List.length_map, List.length_range]; exact le_refl _)]
    simp only [List.length_map, List.length_range, Nat.sub_self, List.getElem?_cons_zero]

/-- C15 witness: a length prefix of 2 x 1,000,000,000 + 37: three receives, of
which two in the loop. -/
theorem recv_terminates_inside_buffer_witness :
    (send_loop ((List.replicate 2000000037 (0 : Byte)).length : Int) 0).length =
      (List.replicate 2000000037 (0 : Byte)).length / 1000000000 + 1 ∧
    (List.replicate 2000000037 (0 : Byte)).length / 1000000000 * 1000000000 +
      (List.replicate 2000000037 (0 : Byte)).length % 1000000000 =
        (List.replicate 2000000037 (0 : Byte)).length :=
  ⟨(recv_terminates_inside_buffer (List.replicate 2000000037 (0 : Byte))
      (by rw [List.length_replicate]; decide)).2.2.1,
   (recv_terminates_inside_buffer (List.replicate 2000000037 (0 : Byte))
      (by rw [List.length_replicate]; decide)).2.2.2.2.2.2.2.2⟩

end SST
